import Mathlib

/-!
# Verification of the `web-live-player` repository

A shallow embedding, in Lean 4, of the parts of the `web-live-player`
TypeScript code base that the checked claims are about:

* `src/protocol/sesame-binary-protocol.ts` — the Sesame binary wire format
  (`serialize`, `parseData`, `validateHeader`, `calculateHeaderSize`), with
  byte buffers modelled as `List Nat` of byte values and all multi-byte
  fields written little-endian exactly as the `DataView` calls do.
* `src/protocol/codec-utils.ts` — `rescaleTime`, with JavaScript `BigInt`
  division modelled by `Int.tdiv` (truncation toward zero) and the final
  `Number(bigint)` conversion modelled by `toFloat64Int` (rounding an
  integer to the nearest IEEE-754 binary64 value, ties to even).
* `src/scheduling/frame-scheduler.ts` — the `FrameScheduler` state machine
  (`enqueue`, `dequeue`, `clear`, `setBufferDelay`), with JavaScript number
  arithmetic on times modelled exactly over `Rat`.
* `src/player/live-player.ts` — the keyframe gating of
  `LiveVideoPlayer.handleStreamData` / `flush` / `setPreferredDecoder`,
  modelled as a synchronous event-step function (decoder configuration is
  modelled as completing atomically within the event that triggers it).
* `src/player/file-player.ts` — the buffer-ready barrier of
  `FileVideoPlayer.waitForBuffer`, modelled as a settle-once process over a
  trace of frame-decoded events and the firing of the 5-second timeout.

Fields of the TypeScript classes that only feed logging or statistics
displays (latency history, packet-timing history for visualization, the
logger) and cannot influence the observable behaviour in any claim are not
carried in the state structures; every field that can influence buffers,
drop decisions, returned frames or validity is modelled.
-/

namespace WebLivePlayer

/-! ## Little-endian byte encoding helpers

`DataView.setUint16/32/BigUint64(…, true)` write values little-endian,
coercing the argument modulo 2^width; `getUint…` read them back. Buffers
are `List Nat` whose entries are byte values. -/

/-- Little-endian bytes of `n % 2^16`, as written by `DataView.setUint16`. -/
def u16le (n : Nat) : List Nat := [n % 256, n / 256 % 256]

/-- Little-endian bytes of `n % 2^32`, as written by `DataView.setUint32`. -/
def u32le (n : Nat) : List Nat := u16le n ++ u16le (n / 2 ^ 16)

/-- Little-endian bytes of `n % 2^64`, as written by `DataView.setBigUint64`. -/
def u64le (n : Nat) : List Nat := u32le n ++ u32le (n / 2 ^ 32)

/-- Read one byte at index `i` (out-of-range reads default to 0; every use
below is guarded by a length check, as in the TypeScript code). -/
def rdU8 (b : List Nat) (i : Nat) : Nat := b.getD i 0

/-- Read a little-endian `uint16` at byte offset `i` (`DataView.getUint16`). -/
def rdU16 (b : List Nat) (i : Nat) : Nat := rdU8 b i + 2 ^ 8 * rdU8 b (i + 1)

/-- Read a little-endian `uint32` at byte offset `i` (`DataView.getUint32`). -/
def rdU32 (b : List Nat) (i : Nat) : Nat := rdU16 b i + 2 ^ 16 * rdU16 b (i + 2)

/-- Read a little-endian `uint64` at byte offset `i` (`DataView.getBigUint64`). -/
def rdU64 (b : List Nat) (i : Nat) : Nat := rdU32 b i + 2 ^ 32 * rdU32 b (i + 4)

@[simp] theorem length_u16le (n : Nat) : (u16le n).length = 2 := rfl

@[simp] theorem length_u32le (n : Nat) : (u32le n).length = 4 := rfl

@[simp] theorem length_u64le (n : Nat) : (u64le n).length = 8 := rfl

theorem rdU8_shift (a l : List Nat) (i : Nat) :
    rdU8 (a ++ l) (a.length + i) = rdU8 l i := by
  unfold rdU8
  rw [List.getD_append_right a l 0 _ (Nat.le_add_right _ _), Nat.add_sub_cancel_left]

theorem rdU16_shift (a l : List Nat) (i : Nat) :
    rdU16 (a ++ l) (a.length + i) = rdU16 l i := by
  unfold rdU16
  rw [rdU8_shift, show a.length + i + 1 = a.length + (i + 1) from by omega, rdU8_shift]

theorem rdU32_shift (a l : List Nat) (i : Nat) :
    rdU32 (a ++ l) (a.length + i) = rdU32 l i := by
  unfold rdU32
  rw [rdU16_shift, show a.length + i + 2 = a.length + (i + 2) from by omega, rdU16_shift]

theorem rdU64_shift (a l : List Nat) (i : Nat) :
    rdU64 (a ++ l) (a.length + i) = rdU64 l i := by
  unfold rdU64
  rw [rdU32_shift, show a.length + i + 4 = a.length + (i + 4) from by omega, rdU32_shift]

theorem rdU16_u16le (n : Nat) (rest : List Nat) :
    rdU16 (u16le n ++ rest) 0 = n % 2 ^ 16 := by
  have h : rdU16 (u16le n ++ rest) 0 = n % 256 + 256 * (n / 256 % 256) := by
    simp [rdU16, rdU8, u16le, List.getD]
  rw [h]
  omega

theorem rdU32_u32le (n : Nat) (rest : List Nat) :
    rdU32 (u32le n ++ rest) 0 = n % 2 ^ 32 := by
  have h1 : u32le n ++ rest = u16le n ++ (u16le (n / 2 ^ 16) ++ rest) := by
    simp [u32le]
  have h2 : rdU16 (u32le n ++ rest) 0 = n % 2 ^ 16 := by
    rw [h1]; exact rdU16_u16le n _
  have h3 : rdU16 (u32le n ++ rest) 2 = n / 2 ^ 16 % 2 ^ 16 := by
    have hs := rdU16_shift (u16le n) (u16le (n / 2 ^ 16) ++ rest) 0
    rw [h1]
    simpa using hs.trans (rdU16_u16le _ _)
  have h4 : (2 : Nat) ^ 32 = 2 ^ 16 * 2 ^ 16 := by norm_num
  rw [rdU32, h2, h3, h4, Nat.mod_mul]

theorem rdU64_u64le (n : Nat) (rest : List Nat) :
    rdU64 (u64le n ++ rest) 0 = n % 2 ^ 64 := by
  have h1 : u64le n ++ rest = u32le n ++ (u32le (n / 2 ^ 32) ++ rest) := by
    simp [u64le]
  have h2 : rdU32 (u64le n ++ rest) 0 = n % 2 ^ 32 := by
    rw [h1]; exact rdU32_u32le n _
  have h3 : rdU32 (u64le n ++ rest) 4 = n / 2 ^ 32 % 2 ^ 32 := by
    have hs := rdU32_shift (u32le n) (u32le (n / 2 ^ 32) ++ rest) 0
    rw [h1]
    simpa using hs.trans (rdU32_u32le _ _)
  have h4 : (2 : Nat) ^ 64 = 2 ^ 32 * 2 ^ 32 := by norm_num
  rw [rdU64, h2, h3, h4, Nat.mod_mul]

/-! ## Sesame binary protocol (`src/protocol/sesame-binary-protocol.ts`) -/

/-- `PROTOCOL_MAGIC = 0x4D534553` ('SESM'). -/
def PROTOCOL_MAGIC : Nat := 0x4D534553

/-- `PROTOCOL_VERSION = 1`. -/
def PROTOCOL_VERSION : Nat := 1

/-- `HEADER_DATA_SIZE = 32`. -/
def HEADER_DATA_SIZE : Nat := 32

/-- `HEADER_CODEC_DATA_SIZE = 24`. -/
def HEADER_CODEC_DATA_SIZE : Nat := 24

/-- `HEADER_METADATA_SIZE = 64`. -/
def HEADER_METADATA_SIZE : Nat := 64

/-- `FLAG_HAS_CODEC_DATA = 1 << 0`. -/
def FLAG_HAS_CODEC_DATA : Nat := 1

/-- `FLAG_HAS_METADATA = 1 << 1`. -/
def FLAG_HAS_METADATA : Nat := 2

/-- `FLAG_IS_KEYFRAME = 1 << 2`. -/
def FLAG_IS_KEYFRAME : Nat := 4

/-- `HeaderData` (32 bytes on the wire).  Numeric enum `PacketType` is kept
as the underlying `uint16` value. -/
structure HeaderData where
  magic : Nat
  flags : Nat
  pts : Nat
  id : Nat
  version : Nat
  header_size : Nat
  type : Nat
  reserved : Nat
deriving DecidableEq, Repr

/-- `HeaderCodecData` (24 bytes on the wire).  `CodecType` is kept as the
underlying `uint8` value. -/
structure HeaderCodecData where
  sample_rate : Nat
  timebase_num : Nat
  timebase_den : Nat
  codec_profile : Nat
  codec_level : Nat
  width : Nat
  height : Nat
  codec_type : Nat
  channels : Nat
  bit_depth : Nat
  reserved : Nat
deriving DecidableEq, Repr

/-- `ParsedData`.  Metadata is kept as its UTF-8 byte sequence (the
TypeScript code stores the decoded string; UTF-8 encoding is injective, so
comparing byte sequences is equivalent). -/
structure ParsedData where
  valid : Bool
  header : Option HeaderData
  metadata : Option (List Nat)
  codec_data : Option HeaderCodecData
  payload : Option (List Nat)
  payload_size : Nat
deriving DecidableEq, Repr

/-- `SesameBinaryProtocol.calculateHeaderSize`. -/
def calculateHeaderSize (flags : Nat) : Nat :=
  HEADER_DATA_SIZE +
    (if flags &&& FLAG_HAS_METADATA ≠ 0 then HEADER_METADATA_SIZE else 0) +
    (if flags &&& FLAG_HAS_CODEC_DATA ≠ 0 then HEADER_CODEC_DATA_SIZE else 0)

/-- `SesameBinaryProtocol.initHeader`. -/
def initHeader (type : Nat) (flags : Nat) (pts : Nat) (id : Nat) : HeaderData :=
  { magic := PROTOCOL_MAGIC
    version := PROTOCOL_VERSION
    header_size := calculateHeaderSize flags
    type := type
    flags := flags
    pts := pts
    id := id
    reserved := 0 }

/-- `SesameBinaryProtocol.validateHeader`, with the four checks in source
order. -/
def validateHeader (header : HeaderData) (totalSize : Nat) : Bool :=
  if header.magic ≠ PROTOCOL_MAGIC then false
  else if header.version ≠ PROTOCOL_VERSION then false
  else if header.header_size ≠ calculateHeaderSize header.flags then false
  else if totalSize < header.header_size then false
  else true

/-- `SesameBinaryProtocol.stringToFixedBytes`: copy at most `size - 1`
bytes into a zero-initialized buffer of length `size` and null-terminate. -/
def stringToFixedBytes (str : List Nat) (size : Nat) : List Nat :=
  let copyLen := min str.length (size - 1)
  str.take copyLen ++ List.replicate (size - copyLen) 0

/-- `SesameBinaryProtocol.fixedBytesToString`: the bytes before the first
null terminator (the whole buffer when there is none). -/
def fixedBytesToString (bytes : List Nat) : List Nat :=
  bytes.takeWhile (fun b => b ≠ 0)

/-- The 32 header bytes written by `serialize` (C++ field order, all
little-endian). -/
def serializeHeaderBytes (h : HeaderData) : List Nat :=
  u32le h.magic ++ u32le h.flags ++ u64le h.pts ++ u64le h.id ++
    u16le h.version ++ u16le h.header_size ++ u16le h.type ++ u16le h.reserved

/-- The 24 codec-data bytes written by `serialize` (C++ field order;
`setUint8` coerces modulo 256). -/
def serializeCodecBytes (c : HeaderCodecData) : List Nat :=
  u32le c.sample_rate ++ u32le c.timebase_num ++ u32le c.timebase_den ++
    u16le c.codec_profile ++ u16le c.codec_level ++ u16le c.width ++
    u16le c.height ++
    [c.codec_type % 256, c.channels % 256, c.bit_depth % 256, c.reserved % 256]

@[simp] theorem length_serializeHeaderBytes (h : HeaderData) :
    (serializeHeaderBytes h).length = 32 := by
  simp [serializeHeaderBytes]

@[simp] theorem length_serializeCodecBytes (c : HeaderCodecData) :
    (serializeCodecBytes c).length = 24 := by
  simp [serializeCodecBytes]

@[simp] theorem length_stringToFixedBytes (str : List Nat) (size : Nat)
    (h : 1 ≤ size) : (stringToFixedBytes str size).length = size := by
  simp only [stringToFixedBytes, List.length_append, List.length_take,
    List.length_replicate]
  omega

instance : Inhabited HeaderCodecData :=
  ⟨{ sample_rate := 0, timebase_num := 0, timebase_den := 0, codec_profile := 0,
     codec_level := 0, width := 0, height := 0, codec_type := 0, channels := 0,
     bit_depth := 0, reserved := 0 }⟩

/-- `SesameBinaryProtocol.serialize`.  The TypeScript function mutates
`header.header_size` before writing; here the updated header is written.
The return type mirrors `Uint8Array | null` (no code path returns null). -/
def serialize (header : HeaderData) (metadata : Option (List Nat))
    (codecData : Option HeaderCodecData) (payload : Option (List Nat)) :
    Option (List Nat) :=
  let includeMetadata := metadata.isSome ∧ header.flags &&& FLAG_HAS_METADATA ≠ 0
  let includeCodec := codecData.isSome ∧ header.flags &&& FLAG_HAS_CODEC_DATA ≠ 0
  let headerSize := HEADER_DATA_SIZE +
    (if includeMetadata then HEADER_METADATA_SIZE else 0) +
    (if includeCodec then HEADER_CODEC_DATA_SIZE else 0)
  let h := { header with header_size := headerSize }
  let metaBlock := if includeMetadata then
      stringToFixedBytes (metadata.getD []) HEADER_METADATA_SIZE
    else []
  let codecBlock := if includeCodec then
      serializeCodecBytes (codecData.getD default)
    else []
  some (serializeHeaderBytes h ++ metaBlock ++ codecBlock ++ payload.getD [])

/-- The header fields read at offsets 0–31 by `parseData`. -/
def readHeader (data : List Nat) : HeaderData :=
  { magic := rdU32 data 0
    flags := rdU32 data 4
    pts := rdU64 data 8
    id := rdU64 data 16
    version := rdU16 data 24
    header_size := rdU16 data 26
    type := rdU16 data 28
    reserved := rdU16 data 30 }

/-- The codec-data fields read at offsets `off`–`off+23` by `parseData`. -/
def readCodec (data : List Nat) (off : Nat) : HeaderCodecData :=
  { sample_rate := rdU32 data off
    timebase_num := rdU32 data (off + 4)
    timebase_den := rdU32 data (off + 8)
    codec_profile := rdU16 data (off + 12)
    codec_level := rdU16 data (off + 14)
    width := rdU16 data (off + 16)
    height := rdU16 data (off + 18)
    codec_type := rdU8 data (off + 20)
    channels := rdU8 data (off + 21)
    bit_depth := rdU8 data (off + 22)
    reserved := rdU8 data (off + 23) }

/-- The all-invalid result `parseData` starts from. -/
def invalidParse : ParsedData :=
  { valid := false, header := none, metadata := none, codec_data := none,
    payload := none, payload_size := 0 }

/-- `SesameBinaryProtocol.parseData`.  Mirrors the source: reject buffers
shorter than 36 bytes, read and validate the header, then read the optional
metadata and codec blocks (each guarded by a further length check that
returns an invalid result with the header already filled in) and take the
rest as payload. -/
def parseData (data : List Nat) : ParsedData :=
  if data.length < 36 then invalidParse
  else
    let header := readHeader data
    if validateHeader header data.length = false then invalidParse
    else
      let hasMeta := header.flags &&& FLAG_HAS_METADATA ≠ 0
      let hasCodec := header.flags &&& FLAG_HAS_CODEC_DATA ≠ 0
      if hasMeta ∧ data.length < HEADER_DATA_SIZE + HEADER_METADATA_SIZE then
        { invalidParse with header := some header }
      else
        let metadata := if hasMeta then
            some (fixedBytesToString
              ((data.drop HEADER_DATA_SIZE).take HEADER_METADATA_SIZE))
          else none
        let codecOff := HEADER_DATA_SIZE + (if hasMeta then HEADER_METADATA_SIZE else 0)
        if hasCodec ∧ data.length < codecOff + HEADER_CODEC_DATA_SIZE then
          { invalidParse with header := some header, metadata := metadata }
        else
          let codec_data := if hasCodec then some (readCodec data codecOff) else none
          let payloadOff := codecOff + (if hasCodec then HEADER_CODEC_DATA_SIZE else 0)
          let payload := data.drop payloadOff
          { valid := true, header := some header, metadata := metadata,
            codec_data := codec_data, payload := some payload,
            payload_size := payload.length }

/-- Metadata as recovered by a parse of the serializer's output: truncated
at 63 bytes (the serializer copies at most `size - 1 = 63` bytes) and cut
at the first null byte (the parser stops at the null terminator). -/
def metadataTruncated (m : List Nat) : List Nat :=
  (m.take 63).takeWhile (fun b => b ≠ 0)

/-! ## Codec utilities (`src/protocol/codec-utils.ts`) -/

/-- `Timebase`. -/
structure Timebase where
  num : Int
  den : Int
deriving DecidableEq, Repr

/-- The distance between consecutive IEEE-754 binary64 values around
magnitude `a` (1 for every `a ≤ 2^53`).  Fuel-structured so that it
computes by kernel reduction; 128 units of fuel cover every magnitude below
`2^181`, far beyond any value producible from 64-bit timestamps and 32-bit
timebases. -/
def ulpFuel : Nat → Nat → Nat
  | 0, _ => 1
  | fuel + 1, a => if a ≤ 2 ^ 53 then 1 else 2 * ulpFuel fuel (a / 2)

/-- `Number(bigint)` for integer magnitudes below `2^181`: the nearest
IEEE-754 binary64 value, ties to even.  Models the final conversion in
`rescaleTime` (whose `number` return type cannot hold every `bigint`
exactly). -/
def toFloat64Int (n : Int) : Int :=
  let a := n.natAbs
  let s := ulpFuel 128 a
  let q := a / s
  let r := a % s
  let rounded : Nat :=
    if 2 * r < s then q * s
    else if s < 2 * r then (q + 1) * s
    else if q % 2 = 0 then q * s else (q + 1) * s
  if 0 ≤ n then (rounded : Int) else -(rounded : Int)

/-- `rescaleTime`.  JavaScript `BigInt` division truncates toward zero
(`Int.tdiv`) and throws a `RangeError` on a zero divisor (`none` here);
the result is converted to a JavaScript `number`. -/
def rescaleTime (pts : Int) (source target : Timebase) : Option Int :=
  if source.den * target.num = 0 then none
  else some (toFloat64Int ((pts * source.num * target.den).tdiv
    (source.den * target.num)))

/-- `codecDataChanged` — codec identity comparison on the five fields the
source compares. -/
def codecDataChanged (current newData : Option HeaderCodecData) : Bool :=
  match current, newData with
  | none, none => false
  | none, some _ => true
  | some _, none => true
  | some c, some n =>
    c.codec_type ≠ n.codec_type ∨ c.width ≠ n.width ∨ c.height ≠ n.height ∨
      c.codec_profile ≠ n.codec_profile ∨ c.codec_level ≠ n.codec_level

/-! ## Frame scheduler (`src/scheduling/frame-scheduler.ts`)

JavaScript `number` arithmetic on times and durations is modelled exactly
over `Rat` (the values arising in the scheduler are sums, differences and
divisions of millisecond/microsecond quantities).  Frames are identified
by a `Nat` tag; the generic payload `T` never influences control flow. -/

/-- A queued frame (`QueuedFrame<T>`): payload tag and stream timestamp in
microseconds.  The `timing` member is only used for latency statistics and
is not carried. -/
structure QFrame where
  frame : Nat
  timestamp : Rat
deriving DecidableEq, Repr

instance : Inhabited QFrame := ⟨⟨0, 0⟩⟩

/-- The two values of the `onFrameDropped` reason argument. -/
inductive DropReason
  | overflow
  | skip
deriving DecidableEq, Repr

/-- The state of a `FrameScheduler`.  Latency history and packet-timing
history feed only `getLatencyStats`/visualization and are not carried. -/
structure SchedulerState where
  buffer : List QFrame
  bufferDelayMs : Rat
  maxBufferSize : Nat
  startRealTimeUs : Option Rat
  startStreamTimeUs : Option Rat
  frameDurationUs : Rat
  lastFrameTimestamp : Option Rat
  bufferSizeHistory : List Nat
  driftCheckInterval : Nat
  driftThresholdMs : Rat
  dequeueCount : Nat
  statsDropped : Nat
  statsEnqueued : Nat
  statsDequeued : Nat
  statsDriftCorrections : Nat
deriving DecidableEq, Repr

/-- The `FrameScheduler` constructor.  `none` arguments take the source's
defaults (`??`); `maxBufferSize` defaults to at least 30 frames, or twice
the buffer delay's worth at 60 fps. -/
def mkScheduler (cfgBufferDelayMs : Option Rat) (cfgMaxBufferSize : Option Nat)
    (cfgDriftCheckInterval : Option Nat) (cfgDriftThresholdMs : Option Rat) :
    SchedulerState :=
  let bufferDelayMs := cfgBufferDelayMs.getD 100
  let minFramesForBuffer := (bufferDelayMs / 1000 * 60 * 2).ceil.toNat
  { buffer := []
    bufferDelayMs := bufferDelayMs
    maxBufferSize := cfgMaxBufferSize.getD (max 30 minFramesForBuffer)
    startRealTimeUs := none
    startStreamTimeUs := none
    frameDurationUs := 20000
    lastFrameTimestamp := none
    bufferSizeHistory := []
    driftCheckInterval := cfgDriftCheckInterval.getD 150
    driftThresholdMs := cfgDriftThresholdMs.getD 30
    dequeueCount := 0
    statsDropped := 0
    statsEnqueued := 0
    statsDequeued := 0
    statsDriftCorrections := 0 }

/-- The overflow `while`-loop of `enqueue`: shift from the front while the
buffer holds at least `maxB` frames.  Returns (kept, dropped-front-first).
(For `maxB = 0` and an empty buffer the TypeScript loop never terminates;
the recursion stops on the empty buffer instead — all claims assume
`1 ≤ maxBufferSize`, which every constructor default satisfies.) -/
def dropOverflow : List QFrame → Nat → List QFrame × List QFrame
  | [], _ => ([], [])
  | x :: rest, maxB =>
    if rest.length + 1 ≥ maxB then
      let r := dropOverflow rest maxB
      (r.1, x :: r.2)
    else (x :: rest, [])

/-- `FrameScheduler.enqueue`.  Returns the new state and the
`onFrameDropped` calls made (front-most first). -/
def SchedulerState.enqueue (s : SchedulerState) (f : Nat) (ts : Rat) :
    SchedulerState × List (Nat × DropReason) :=
  let frameDurationUs := match s.lastFrameTimestamp with
    | some last =>
      let delta := ts - last
      if 0 < delta ∧ delta < 100000 then delta else s.frameDurationUs
    | none => s.frameDurationUs
  let r := dropOverflow s.buffer s.maxBufferSize
  let s' : SchedulerState := { s with
    buffer := r.1 ++ [⟨f, ts⟩]
    statsEnqueued := s.statsEnqueued + 1
    frameDurationUs := frameDurationUs
    lastFrameTimestamp := some ts
    statsDropped := s.statsDropped + r.2.length
    startRealTimeUs := if r.2.isEmpty then s.startRealTimeUs else none
    startStreamTimeUs := if r.2.isEmpty then s.startStreamTimeUs else none }
  (s', r.2.map (fun q => (q.frame, DropReason.overflow)))

/-- `findBestFrameIndex`: index of the last frame of the initial run with
timestamp at most `target` (the loop breaks at the first later frame),
`none` for the source's `-1`. -/
def findBestFrameIndex (buf : List QFrame) (targetUs : Rat) : Option Nat :=
  let r := (buf.takeWhile (fun q => q.timestamp ≤ targetUs)).length
  if r = 0 then none else some (r - 1)

/-- `trackBufferSize`: push the current buffer size, capped at 100
entries. -/
def trackBufferSize (s : SchedulerState) : SchedulerState :=
  let h := s.bufferSizeHistory ++ [s.buffer.length]
  { s with bufferSizeHistory := if h.length > 100 then h.tail else h }

/-- `correctDrift`.  The source's `!this.startStreamTimeUs` guard is a
truthiness test: it skips the correction both when the sync point is unset
and when it is exactly 0. -/
def correctDrift (s : SchedulerState) : SchedulerState :=
  match s.startStreamTimeUs with
  | none => s
  | some ss =>
    if s.bufferSizeHistory.length < 10 ∨ ss = 0 then s
    else
      let avgFrames : Rat :=
        (s.bufferSizeHistory.map (fun n => (n : Rat))).sum / s.bufferSizeHistory.length
      let avgBufferMs := avgFrames * s.frameDurationUs / 1000
      let driftMs := avgBufferMs - s.bufferDelayMs
      let threshold := min s.driftThresholdMs (s.bufferDelayMs * (1 / 2))
      if |driftMs| > threshold then
        { s with startStreamTimeUs := some (ss + driftMs * 1000)
                 statsDriftCorrections := s.statsDriftCorrections + 1
                 bufferSizeHistory := [] }
      else s

/-- The sync-point initialization at the top of `dequeue`: on the first
dequeue with frames, anchor `(realTime, firstFrameTimestamp + bufferDelay)`. -/
def syncInit (s : SchedulerState) (realTimeUs : Rat) : SchedulerState :=
  if s.startRealTimeUs.isNone then
    { s with startRealTimeUs := some realTimeUs
             startStreamTimeUs :=
               some ((s.buffer.headD default).timestamp + s.bufferDelayMs * 1000) }
  else s

/-- The expected stream time a `dequeue(realTimeMs)` call compares frames
against: `startStream + (now - startReal) - bufferDelay`, using the sync
point as (possibly) initialized by that very call. -/
def dequeueExpected (s : SchedulerState) (realTimeMs : Rat) : Rat :=
  let realTimeUs := realTimeMs * 1000
  let s1 := syncInit s realTimeUs
  s1.startStreamTimeUs.getD 0 + (realTimeUs - s1.startRealTimeUs.getD 0) -
    s1.bufferDelayMs * 1000

/-- `FrameScheduler.dequeue`.  Returns the dequeued frame tag (if any), the
new state, and the `onFrameDropped` calls made. -/
def SchedulerState.dequeue (s : SchedulerState) (realTimeMs : Rat) :
    Option Nat × SchedulerState × List (Nat × DropReason) :=
  let realTimeUs := realTimeMs * 1000
  if s.buffer.isEmpty then (none, s, [])
  else if s.bufferDelayMs = 0 then
    -- bypass mode: return the latest frame, drop the rest with 'skip'
    let s1 := trackBufferSize s
    let latest := s1.buffer.getLastD default
    let rest := s1.buffer.dropLast
    ( some latest.frame,
      { s1 with buffer := []
                statsDequeued := s1.statsDequeued + 1
                statsDropped := s1.statsDropped + rest.length },
      rest.map (fun q => (q.frame, DropReason.skip)) )
  else
    let currentBufferMs := s.buffer.length * s.frameDurationUs / 1000
    let minBufferMs := min (s.bufferDelayMs * (1 / 2)) (s.frameDurationUs / 1000)
    if currentBufferMs < minBufferMs then (none, s, [])
    else
      let s2 := trackBufferSize (syncInit s realTimeUs)
      let elapsedUs := realTimeUs - s2.startRealTimeUs.getD 0
      let expected := s2.startStreamTimeUs.getD 0 + elapsedUs - s2.bufferDelayMs * 1000
      match findBestFrameIndex s2.buffer expected with
      | none => (none, s2, [])
      | some bestIdx =>
        let dropCount := if bestIdx > 1 then bestIdx - 1 else 0
        let droppedSkip := s2.buffer.take dropCount
        let buf3 := s2.buffer.drop dropCount
        let s3 := { s2 with buffer := buf3
                            statsDropped := s2.statsDropped + droppedSkip.length
                            dequeueCount := s2.dequeueCount + 1 }
        let s4 := if s3.dequeueCount % s3.driftCheckInterval = 0 then correctDrift s3 else s3
        let entry := s4.buffer.headD default
        ( some entry.frame,
          { s4 with buffer := s4.buffer.tail, statsDequeued := s4.statsDequeued + 1 },
          droppedSkip.map (fun q => (q.frame, DropReason.skip)) )

/-- `FrameScheduler.clear`: every buffered frame is reported dropped with
reason 'overflow' (the source does not increment `stats.dropped` here). -/
def SchedulerState.clear (s : SchedulerState) :
    SchedulerState × List (Nat × DropReason) :=
  ( { s with buffer := [], startRealTimeUs := none, startStreamTimeUs := none,
             bufferSizeHistory := [] },
    s.buffer.map (fun q => (q.frame, DropReason.overflow)) )

/-- `FrameScheduler.setBufferDelay`. -/
def SchedulerState.setBufferDelay (s : SchedulerState) (delayMs : Rat) :
    SchedulerState :=
  let wasNonZero := 0 < s.bufferDelayMs
  let s1 := { s with bufferDelayMs := delayMs }
  if (wasNonZero ∧ delayMs = 0) ∨ (¬wasNonZero ∧ 0 < delayMs) then
    { s1 with bufferSizeHistory := [], startRealTimeUs := none,
              startStreamTimeUs := none }
  else s1

/-- The public scheduler operations a client can interleave. -/
inductive SchedOp
  | enqueue (f : Nat) (ts : Rat)
  | dequeue (realTimeMs : Rat)
  | clear
  | setBufferDelay (delayMs : Rat)
deriving DecidableEq, Repr

/-- One scheduler operation: returns the new state, the frames handed out,
the `onFrameDropped` calls, and the frames enqueued. -/
def schedStep (s : SchedulerState) (op : SchedOp) :
    SchedulerState × List Nat × List (Nat × DropReason) × List Nat :=
  match op with
  | .enqueue f ts =>
    let r := s.enqueue f ts
    (r.1, [], r.2, [f])
  | .dequeue t =>
    let r := s.dequeue t
    (r.2.1, r.1.toList, r.2.2, [])
  | .clear =>
    let r := s.clear
    (r.1, [], r.2, [])
  | .setBufferDelay d => (s.setBufferDelay d, [], [], [])

/-- Run a sequence of scheduler operations, accumulating handed-out frames,
drop reports and enqueued frames. -/
def schedRun (s : SchedulerState) :
    List SchedOp → SchedulerState × List Nat × List (Nat × DropReason) × List Nat
  | [] => (s, [], [], [])
  | op :: ops =>
    let r1 := schedStep s op
    let r2 := schedRun r1.1 ops
    (r2.1, r1.2.1 ++ r2.2.1, r1.2.2.1 ++ r2.2.2.1, r1.2.2.2 ++ r2.2.2.2)

/-! ## Live player keyframe gating (`src/player/live-player.ts`)

The video path of `handleStreamData` (packets that carry codec data and
pass the track/type filters), together with `flush` and the decoder
switch/reconfigure of `setPreferredDecoder`, modelled as a synchronous
step function: the `await configureDecoder(...)` and the reprocessing of
`pendingDuringConfig` complete within the event that triggers them, so
`isConfiguring` is never observed `true` and the pending queue holds at
most the triggering keyframe. -/

/-- The gating-relevant state of `LiveVideoPlayer`, plus one history
variable.  `matchedKeyframeSinceReset` records whether, since the last
reset of the keyframe gate (initial state, flush, decoder switch, or
decoder reconfiguration), a keyframe has been seen whose codec identity
equals the player's current codec identity. -/
structure LivePlayerState where
  currentCodecData : Option HeaderCodecData
  waitingForKeyframe : Bool
  decoderExists : Bool
  decoderConfigured : Bool
  matchedKeyframeSinceReset : Bool
deriving DecidableEq, Repr

/-- The player's initial state (`waitingForKeyframe = true`, no decoder,
no codec data). -/
def initLivePlayer : LivePlayerState :=
  { currentCodecData := none, waitingForKeyframe := true,
    decoderExists := false, decoderConfigured := false,
    matchedKeyframeSinceReset := false }

/-- Events reaching the modelled paths: a video packet carrying codec data
(with the outcome the decoder configuration would have if this packet
triggers one), a `flush`, or a `setPreferredDecoder` change. -/
inductive PlayerEvent
  | videoPacket (isKeyframe : Bool) (codec : HeaderCodecData) (configureOk : Bool)
  | flush
  | switchDecoder
deriving DecidableEq, Repr

/-- A call of `decoder.decodeBinary`, with the packet's keyframe flag and
codec data and the value of the history variable at the moment of the
call. -/
structure DecodeRec where
  isKeyframe : Bool
  codec : HeaderCodecData
  matchedKeyframeSeen : Bool
deriving DecidableEq, Repr

/-- Update of the history variable on seeing a video packet: a keyframe
whose codec identity equals the (current) codec identity marks the gate
condition as established. -/
def noteSeen (s : LivePlayerState) (kf : Bool) (cd : HeaderCodecData) :
    LivePlayerState :=
  if kf ∧ codecDataChanged s.currentCodecData (some cd) = false then
    { s with matchedKeyframeSinceReset := true }
  else s

/-- The decoder-ready and waiting-for-keyframe checks of
`handleStreamData`, ending in `decoder.decodeBinary` when they pass. -/
def processGate (s : LivePlayerState) (kf : Bool) (cd : HeaderCodecData) :
    LivePlayerState × List DecodeRec :=
  let s1 := noteSeen s kf cd
  if ¬ s1.decoderConfigured then (s1, [])
  else if s1.waitingForKeyframe then
    if ¬ kf then (s1, [])  -- drop; possibly requestKeyframe()
    else
      let s2 := { s1 with waitingForKeyframe := false }
      (s2, [⟨kf, cd, s2.matchedKeyframeSinceReset⟩])
  else (s1, [⟨kf, cd, s1.matchedKeyframeSinceReset⟩])

/-- One event step of the live player. -/
def playerStep (s : LivePlayerState) (e : PlayerEvent) :
    LivePlayerState × List DecodeRec :=
  match e with
  | .videoPacket kf cd cfgOk =>
    if codecDataChanged s.currentCodecData (some cd) then
      if ¬ kf then (s, [])  -- wait for a keyframe to reconfigure
      else
        -- reconfigure: adopt the new codec data, (re)create and configure
        -- the decoder, require a fresh keyframe, then reprocess this
        -- keyframe from the pending queue
        let s1 : LivePlayerState :=
          { currentCodecData := some cd, waitingForKeyframe := true,
            decoderExists := true, decoderConfigured := cfgOk,
            matchedKeyframeSinceReset := false }
        processGate s1 kf cd
    else processGate s kf cd
  | .flush =>
    ({ s with waitingForKeyframe := true, matchedKeyframeSinceReset := false }, [])
  | .switchDecoder =>
    if s.decoderExists then
      ({ s with waitingForKeyframe := true, currentCodecData := none,
                decoderExists := false, decoderConfigured := false,
                matchedKeyframeSinceReset := false }, [])
    else (s, [])

/-- Run a sequence of player events, accumulating decode calls. -/
def playerRun (s : LivePlayerState) :
    List PlayerEvent → LivePlayerState × List DecodeRec
  | [] => (s, [])
  | e :: es =>
    let r1 := playerStep s e
    let r2 := playerRun r1.1 es
    (r2.1, r1.2 ++ r2.2)

/-! ## File player buffer-ready barrier (`src/player/file-player.ts`)

`waitForBuffer` settles a promise: immediately when the frame buffer
already holds `minBufferSize` frames; otherwise on the first of (a) a
decoded frame bringing the buffer to `minBufferSize`
(`handleDecodedFrame`, which resolves and clears `bufferReadyResolve`),
or (b) the 5-second timeout, which resolves when at least one frame is
buffered and otherwise rejects, appending the faststart hint exactly when
`fileInfo?.isMoovAtStart === false`.  The promise is modelled as a
settle-once process over the trace of those callback firings; while the
player is loading nothing removes frames, so each decode event grows the
buffer by one. -/

/-- `minBufferSize = 3` (frames needed before playback starts). -/
def minBufferSizeDefault : Nat := 3

/-- The `setTimeout` delay of the buffer barrier, in milliseconds. -/
def bufferTimeoutMs : Nat := 5000

/-- How the `waitForBuffer` promise settled. -/
inductive WaitOutcome
  | readyImmediately
  | readyBeforeTimeout
  | readyAtTimeout
  | failedTimeout (moovHint : Bool)
deriving DecidableEq, Repr

/-- The two callbacks that can settle the pending promise. -/
inductive WaitEvent
  | frameDecoded
  | timeoutFires
deriving DecidableEq, Repr

/-- The pending phase: process events until one settles the promise
(`none` while still pending). -/
def waitGo (minBuffer : Nat) (isMoovAtStart : Option Bool) :
    Nat → List WaitEvent → Option WaitOutcome
  | _, [] => none
  | frames, .frameDecoded :: es =>
    let frames' := frames + 1
    if frames' ≥ minBuffer then some .readyBeforeTimeout
    else waitGo minBuffer isMoovAtStart frames' es
  | frames, .timeoutFires :: _ =>
    if frames > 0 then some .readyAtTimeout
    else some (.failedTimeout (isMoovAtStart = some false))

/-- `waitForBuffer`, as a function of the frame count at the call, the
threshold, the file info, and the subsequent callback trace. -/
def waitForBufferProcess (frames minBuffer : Nat) (isMoovAtStart : Option Bool)
    (events : List WaitEvent) : Option WaitOutcome :=
  if frames ≥ minBuffer then some .readyImmediately
  else waitGo minBuffer isMoovAtStart frames events

/-- Header numeric fields within their wire widths (`magic`/`version` are
constrained to the protocol constants separately where needed). -/
def headerInRange (h : HeaderData) : Prop :=
  h.flags < 2 ^ 32 ∧ h.pts < 2 ^ 64 ∧ h.id < 2 ^ 64 ∧ h.type < 2 ^ 16 ∧
    h.reserved < 2 ^ 16

instance (h : HeaderData) : Decidable (headerInRange h) := by
  unfold headerInRange; infer_instance

/-- Codec fields within their wire widths. -/
def codecInRange (c : HeaderCodecData) : Prop :=
  c.sample_rate < 2 ^ 32 ∧ c.timebase_num < 2 ^ 32 ∧ c.timebase_den < 2 ^ 32 ∧
    c.codec_profile < 2 ^ 16 ∧ c.codec_level < 2 ^ 16 ∧ c.width < 2 ^ 16 ∧
    c.height < 2 ^ 16 ∧ c.codec_type < 2 ^ 8 ∧ c.channels < 2 ^ 8 ∧
    c.bit_depth < 2 ^ 8 ∧ c.reserved < 2 ^ 8

instance (c : HeaderCodecData) : Decidable (codecInRange c) := by
  unfold codecInRange; infer_instance

/-- The same buffer with the reserved flag bits (bit 3 and higher of the
32-bit flags word at offset 4) cleared. -/
def clearReservedFlagBits (b : List Nat) : List Nat :=
  b.take 4 ++ u32le (rdU32 b 4 % 8) ++ b.drop 8

/-! ## Concrete inputs used by counterexamples and witnesses -/

/-- A minimal flag-valid packet: keyframe flag only, no metadata, no codec
data, empty payload.  Its serialization is exactly the 32 header bytes. -/
def cexHeaderC1 : HeaderData := initHeader 1 FLAG_IS_KEYFRAME 0 0

/-- The serializer's output for `cexHeaderC1` with no optional blocks and
an empty payload. -/
def cexBufferC1 : List Nat :=
  (serialize cexHeaderC1 none none (some [])).getD []

/-- A flagless packet (flags = 0) whose serialization is exactly 32
bytes — every header check of the original C4 claim passes on it. -/
def cexBufferC4 : List Nat := serializeHeaderBytes (initHeader 1 0 0 0)

/-- A header announcing metadata (`FLAG_HAS_METADATA` set). -/
def cexHeaderC7 : HeaderData := initHeader 1 FLAG_HAS_METADATA 5 6

/-- A representative H.264 codec-data block used by witnesses. -/
def wCodec : HeaderCodecData :=
  { sample_rate := 48000, timebase_num := 1, timebase_den := 90000,
    codec_profile := 100, codec_level := 31, width := 1280, height := 720,
    codec_type := 3, channels := 0, bit_depth := 8, reserved := 0 }

/-- A concrete scheduler state reached from a fresh default scheduler by
three enqueues and one dequeue: the first dequeue (at 5 ms) anchors the
sync point at stream time 100000 µs and returns frame 0, leaving frames 1
(ts 20000) and 2 (ts 40000) buffered. -/
def cexSchedC2 : SchedulerState :=
  (schedRun (mkScheduler none none none none)
    [SchedOp.enqueue 0 0, SchedOp.enqueue 1 20000, SchedOp.enqueue 2 40000,
     SchedOp.dequeue 5]).1

/-! ### Reading serialized fields back -/

theorem rdU8_at (a l : List Nat) (off : Nat) (h : a.length = off) :
    rdU8 (a ++ l) off = rdU8 l 0 := by
  subst h; simpa using rdU8_shift a l 0

theorem rdU16_at (a l : List Nat) (off : Nat) (h : a.length = off) :
    rdU16 (a ++ l) off = rdU16 l 0 := by
  subst h; simpa using rdU16_shift a l 0

theorem rdU32_at (a l : List Nat) (off : Nat) (h : a.length = off) :
    rdU32 (a ++ l) off = rdU32 l 0 := by
  subst h; simpa using rdU32_shift a l 0

theorem rdU64_at (a l : List Nat) (off : Nat) (h : a.length = off) :
    rdU64 (a ++ l) off = rdU64 l 0 := by
  subst h; simpa using rdU64_shift a l 0

/-- Reading the 32 header bytes back recovers every field modulo its wire
width. -/
theorem readHeader_serializeHeaderBytes (h : HeaderData) (rest : List Nat) :
    readHeader (serializeHeaderBytes h ++ rest) =
      { magic := h.magic % 2 ^ 32, flags := h.flags % 2 ^ 32,
        pts := h.pts % 2 ^ 64, id := h.id % 2 ^ 64,
        version := h.version % 2 ^ 16, header_size := h.header_size % 2 ^ 16,
        type := h.type % 2 ^ 16, reserved := h.reserved % 2 ^ 16 } := by
  have e0 : serializeHeaderBytes h ++ rest =
      u32le h.magic ++ (u32le h.flags ++ (u64le h.pts ++ (u64le h.id ++
        (u16le h.version ++ (u16le h.header_size ++ (u16le h.type ++
        (u16le h.reserved ++ rest))))))) := by
    simp [serializeHeaderBytes]
  have hmagic : rdU32 (serializeHeaderBytes h ++ rest) 0 = h.magic % 2 ^ 32 := by
    rw [e0]; exact rdU32_u32le _ _
  have hflags : rdU32 (serializeHeaderBytes h ++ rest) 4 = h.flags % 2 ^ 32 := by
    have e : serializeHeaderBytes h ++ rest =
        u32le h.magic ++ (u32le h.flags ++ (u64le h.pts ++ u64le h.id ++
          u16le h.version ++ u16le h.header_size ++ u16le h.type ++
          u16le h.reserved ++ rest)) := by simp [serializeHeaderBytes]
    rw [e, rdU32_at _ _ 4 (by simp)]
    exact rdU32_u32le _ _
  have hpts : rdU64 (serializeHeaderBytes h ++ rest) 8 = h.pts % 2 ^ 64 := by
    have e : serializeHeaderBytes h ++ rest =
        (u32le h.magic ++ u32le h.flags) ++ (u64le h.pts ++ (u64le h.id ++
          u16le h.version ++ u16le h.header_size ++ u16le h.type ++
          u16le h.reserved ++ rest)) := by simp [serializeHeaderBytes]
    rw [e, rdU64_at _ _ 8 (by simp)]
    exact rdU64_u64le _ _
  have hid : rdU64 (serializeHeaderBytes h ++ rest) 16 = h.id % 2 ^ 64 := by
    have e : serializeHeaderBytes h ++ rest =
        (u32le h.magic ++ u32le h.flags ++ u64le h.pts) ++ (u64le h.id ++
          (u16le h.version ++ u16le h.header_size ++ u16le h.type ++
          u16le h.reserved ++ rest)) := by simp [serializeHeaderBytes]
    rw [e, rdU64_at _ _ 16 (by simp)]
    exact rdU64_u64le _ _
  have hver : rdU16 (serializeHeaderBytes h ++ rest) 24 = h.version % 2 ^ 16 := by
    have e : serializeHeaderBytes h ++ rest =
        (u32le h.magic ++ u32le h.flags ++ u64le h.pts ++ u64le h.id) ++
          (u16le h.version ++ (u16le h.header_size ++ u16le h.type ++
          u16le h.reserved ++ rest)) := by simp [serializeHeaderBytes]
    rw [e, rdU16_at _ _ 24 (by simp)]
    exact rdU16_u16le _ _
  have hhs : rdU16 (serializeHeaderBytes h ++ rest) 26 = h.header_size % 2 ^ 16 := by
    have e : serializeHeaderBytes h ++ rest =
        (u32le h.magic ++ u32le h.flags ++ u64le h.pts ++ u64le h.id ++
          u16le h.version) ++ (u16le h.header_size ++ (u16le h.type ++
          u16le h.reserved ++ rest)) := by simp [serializeHeaderBytes]
    rw [e, rdU16_at _ _ 26 (by simp)]
    exact rdU16_u16le _ _
  have hty : rdU16 (serializeHeaderBytes h ++ rest) 28 = h.type % 2 ^ 16 := by
    have e : serializeHeaderBytes h ++ rest =
        (u32le h.magic ++ u32le h.flags ++ u64le h.pts ++ u64le h.id ++
          u16le h.version ++ u16le h.header_size) ++ (u16le h.type ++
          (u16le h.reserved ++ rest)) := by simp [serializeHeaderBytes]
    rw [e, rdU16_at _ _ 28 (by simp)]
    exact rdU16_u16le _ _
  have hrsv : rdU16 (serializeHeaderBytes h ++ rest) 30 = h.reserved % 2 ^ 16 := by
    have e : serializeHeaderBytes h ++ rest =
        (u32le h.magic ++ u32le h.flags ++ u64le h.pts ++ u64le h.id ++
          u16le h.version ++ u16le h.header_size ++ u16le h.type) ++
          (u16le h.reserved ++ rest) := by simp [serializeHeaderBytes]
    rw [e, rdU16_at _ _ 30 (by simp)]
    exact rdU16_u16le _ _
  unfold readHeader
  rw [hmagic, hflags, hpts, hid, hver, hhs, hty, hrsv]

/-- Reading the 24 codec bytes back at their offset recovers every field
modulo its wire width. -/
theorem readCodec_serializeCodecBytes (c : HeaderCodecData) (pre rest : List Nat)
    (hoff : pre.length = off) :
    readCodec (pre ++ (serializeCodecBytes c ++ rest)) off =
      { sample_rate := c.sample_rate % 2 ^ 32,
        timebase_num := c.timebase_num % 2 ^ 32,
        timebase_den := c.timebase_den % 2 ^ 32,
        codec_profile := c.codec_profile % 2 ^ 16,
        codec_level := c.codec_level % 2 ^ 16,
        width := c.width % 2 ^ 16, height := c.height % 2 ^ 16,
        codec_type := c.codec_type % 2 ^ 8, channels := c.channels % 2 ^ 8,
        bit_depth := c.bit_depth % 2 ^ 8, reserved := c.reserved % 2 ^ 8 } := by
  set b := pre ++ (serializeCodecBytes c ++ rest) with hb
  have hsr : rdU32 b off = c.sample_rate % 2 ^ 32 := by
    have e : b = pre ++ (u32le c.sample_rate ++ (u32le c.timebase_num ++
        u32le c.timebase_den ++ u16le c.codec_profile ++ u16le c.codec_level ++
        u16le c.width ++ u16le c.height ++
        ([c.codec_type % 256, c.channels % 256, c.bit_depth % 256,
          c.reserved % 256] ++ rest))) := by
      simp [hb, serializeCodecBytes]
    rw [e, rdU32_at _ _ off hoff]
    exact rdU32_u32le _ _
  have htn : rdU32 b (off + 4) = c.timebase_num % 2 ^ 32 := by
    have e : b = (pre ++ u32le c.sample_rate) ++ (u32le c.timebase_num ++
        (u32le c.timebase_den ++ u16le c.codec_profile ++ u16le c.codec_level ++
        u16le c.width ++ u16le c.height ++
        ([c.codec_type % 256, c.channels % 256, c.bit_depth % 256,
          c.reserved % 256] ++ rest))) := by
      simp [hb, serializeCodecBytes]
    rw [e, rdU32_at _ _ (off + 4) (by simp [hoff])]
    exact rdU32_u32le _ _
  have htd : rdU32 b (off + 8) = c.timebase_den % 2 ^ 32 := by
    have e : b = (pre ++ u32le c.sample_rate ++ u32le c.timebase_num) ++
        (u32le c.timebase_den ++ (u16le c.codec_profile ++ u16le c.codec_level ++
        u16le c.width ++ u16le c.height ++
        ([c.codec_type % 256, c.channels % 256, c.bit_depth % 256,
          c.reserved % 256] ++ rest))) := by
      simp [hb, serializeCodecBytes]
    rw [e, rdU32_at _ _ (off + 8) (by simp [hoff])]
    exact rdU32_u32le _ _
  have hcp : rdU16 b (off + 12) = c.codec_profile % 2 ^ 16 := by
    have e : b = (pre ++ u32le c.sample_rate ++ u32le c.timebase_num ++
        u32le c.timebase_den) ++ (u16le c.codec_profile ++ (u16le c.codec_level ++
        u16le c.width ++ u16le c.height ++
        ([c.codec_type % 256, c.channels % 256, c.bit_depth % 256,
          c.reserved % 256] ++ rest))) := by
      simp [hb, serializeCodecBytes]
    rw [e, rdU16_at _ _ (off + 12) (by simp [hoff])]
    exact rdU16_u16le _ _
  have hcl : rdU16 b (off + 14) = c.codec_level % 2 ^ 16 := by
    have e : b = (pre ++ u32le c.sample_rate ++ u32le c.timebase_num ++
        u32le c.timebase_den ++ u16le c.codec_profile) ++ (u16le c.codec_level ++
        (u16le c.width ++ u16le c.height ++
        ([c.codec_type % 256, c.channels % 256, c.bit_depth % 256,
          c.reserved % 256] ++ rest))) := by
      simp [hb, serializeCodecBytes]
    rw [e, rdU16_at _ _ (off + 14) (by simp [hoff])]
    exact rdU16_u16le _ _
  have hw : rdU16 b (off + 16) = c.width % 2 ^ 16 := by
    have e : b = (pre ++ u32le c.sample_rate ++ u32le c.timebase_num ++
        u32le c.timebase_den ++ u16le c.codec_profile ++ u16le c.codec_level) ++
        (u16le c.width ++ (u16le c.height ++
        ([c.codec_type % 256, c.channels % 256, c.bit_depth % 256,
          c.reserved % 256] ++ rest))) := by
      simp [hb, serializeCodecBytes]
    rw [e, rdU16_at _ _ (off + 16) (by simp [hoff])]
    exact rdU16_u16le _ _
  have hh : rdU16 b (off + 18) = c.height % 2 ^ 16 := by
    have e : b = (pre ++ u32le c.sample_rate ++ u32le c.timebase_num ++
        u32le c.timebase_den ++ u16le c.codec_profile ++ u16le c.codec_level ++
        u16le c.width) ++ (u16le c.height ++
        ([c.codec_type % 256, c.channels % 256, c.bit_depth % 256,
          c.reserved % 256] ++ rest)) := by
      simp [hb, serializeCodecBytes]
    rw [e, rdU16_at _ _ (off + 18) (by simp [hoff])]
    exact rdU16_u16le _ _
  have hct : rdU8 b (off + 20) = c.codec_type % 2 ^ 8 := by
    have e : b = (pre ++ u32le c.sample_rate ++ u32le c.timebase_num ++
        u32le c.timebase_den ++ u16le c.codec_profile ++ u16le c.codec_level ++
        u16le c.width ++ u16le c.height) ++
        ([c.codec_type % 256, c.channels % 256, c.bit_depth % 256,
          c.reserved % 256] ++ rest) := by
      simp [hb, serializeCodecBytes]
    rw [e, rdU8_at _ _ (off + 20) (by simp [hoff])]
    simp [rdU8]
  have hch : rdU8 b (off + 21) = c.channels % 2 ^ 8 := by
    have e : b = (pre ++ u32le c.sample_rate ++ u32le c.timebase_num ++
        u32le c.timebase_den ++ u16le c.codec_profile ++ u16le c.codec_level ++
        u16le c.width ++ u16le c.height ++ [c.codec_type % 256]) ++
        ([c.channels % 256, c.bit_depth % 256, c.reserved % 256] ++ rest) := by
      simp [hb, serializeCodecBytes]
    rw [e, rdU8_at _ _ (off + 21) (by simp [hoff])]
    simp [rdU8]
  have hbd : rdU8 b (off + 22) = c.bit_depth % 2 ^ 8 := by
    have e : b = (pre ++ u32le c.sample_rate ++ u32le c.timebase_num ++
        u32le c.timebase_den ++ u16le c.codec_profile ++ u16le c.codec_level ++
        u16le c.width ++ u16le c.height ++
        [c.codec_type % 256, c.channels % 256]) ++
        ([c.bit_depth % 256, c.reserved % 256] ++ rest) := by
      simp [hb, serializeCodecBytes]
    rw [e, rdU8_at _ _ (off + 22) (by simp [hoff])]
    simp [rdU8]
  have hrs : rdU8 b (off + 23) = c.reserved % 2 ^ 8 := by
    have e : b = (pre ++ u32le c.sample_rate ++ u32le c.timebase_num ++
        u32le c.timebase_den ++ u16le c.codec_profile ++ u16le c.codec_level ++
        u16le c.width ++ u16le c.height ++
        [c.codec_type % 256, c.channels % 256, c.bit_depth % 256]) ++
        ([c.reserved % 256] ++ rest) := by
      simp [hb, serializeCodecBytes]
    rw [e, rdU8_at _ _ (off + 23) (by simp [hoff])]
    simp [rdU8]
  unfold readCodec
  rw [hsr, htn, htd, hcp, hcl, hw, hh, hct, hch, hbd, hrs]

/-- `validateHeader` passes exactly when the four checks of the source
hold. -/
theorem validateHeader_eq_true_iff (h : HeaderData) (n : Nat) :
    validateHeader h n = true ↔
      (h.magic = PROTOCOL_MAGIC ∧ h.version = PROTOCOL_VERSION ∧
       h.header_size = calculateHeaderSize h.flags ∧ h.header_size ≤ n) := by
  unfold validateHeader
  split_ifs <;> simp_all

theorem takeWhile_append_of_right_nil {p : Nat → Bool} (A B : List Nat)
    (hB : B.takeWhile p = []) : (A ++ B).takeWhile p = A.takeWhile p := by
  induction A with
  | nil => simpa using hB
  | cons a t ih =>
    by_cases hpa : p a <;> simp [List.takeWhile_cons, hpa, ih]

/-- `fixedBytesToString (stringToFixedBytes m 64)` is `m` truncated to 63
bytes and cut at its first null byte. -/
theorem fixedBytes_roundtrip (m : List Nat) :
    fixedBytesToString (stringToFixedBytes m HEADER_METADATA_SIZE) =
      (m.take 63).takeWhile (fun b => b ≠ 0) := by
  unfold stringToFixedBytes fixedBytesToString HEADER_METADATA_SIZE
  dsimp only
  have htake : m.take (min m.length (64 - 1)) = m.take 63 := by
    rcases Nat.le_total m.length 63 with hle | hge
    · rw [show min m.length (64 - 1) = m.length from by omega]
      rw [List.take_length, List.take_of_length_le hle]
    · rw [show min m.length (64 - 1) = 63 from by omega]
  rw [htake]
  apply takeWhile_append_of_right_nil
  obtain ⟨k, hk⟩ : ∃ k, 64 - min m.length (64 - 1) = k + 1 := ⟨63 - min m.length 63, by omega⟩
  rw [hk, List.replicate_succ]
  simp

/-- Reading the header back is exact when every field fits its width. -/
theorem readHeader_exact (h : HeaderData) (rest : List Nat)
    (hmagic : h.magic = PROTOCOL_MAGIC) (hver : h.version = PROTOCOL_VERSION)
    (hrange : headerInRange h) (hhs : h.header_size < 2 ^ 16) :
    readHeader (serializeHeaderBytes h ++ rest) = h := by
  obtain ⟨hflags, hpts, hid, hty, hrsv⟩ := hrange
  rw [readHeader_serializeHeaderBytes]
  have e1 : h.magic % 2 ^ 32 = h.magic :=
    Nat.mod_eq_of_lt (by rw [hmagic]; norm_num [PROTOCOL_MAGIC])
  have e5 : h.version % 2 ^ 16 = h.version :=
    Nat.mod_eq_of_lt (by rw [hver]; norm_num [PROTOCOL_VERSION])
  rw [e1, Nat.mod_eq_of_lt hflags, Nat.mod_eq_of_lt hpts, Nat.mod_eq_of_lt hid,
    e5, Nat.mod_eq_of_lt hhs, Nat.mod_eq_of_lt hty, Nat.mod_eq_of_lt hrsv]

/-- Reading the codec block back is exact when every field fits its
width. -/
theorem readCodec_exact (c : HeaderCodecData) (pre rest : List Nat)
    (hoff : pre.length = off) (hcr : codecInRange c) :
    readCodec (pre ++ (serializeCodecBytes c ++ rest)) off = c := by
  obtain ⟨h1, h2, h3, h4, h5, h6, h7, h8, h9, h10, h11⟩ := hcr
  rw [readCodec_serializeCodecBytes c pre rest hoff]
  rw [Nat.mod_eq_of_lt h1, Nat.mod_eq_of_lt h2, Nat.mod_eq_of_lt h3,
    Nat.mod_eq_of_lt h4, Nat.mod_eq_of_lt h5, Nat.mod_eq_of_lt h6,
    Nat.mod_eq_of_lt h7, Nat.mod_eq_of_lt h8, Nat.mod_eq_of_lt h9,
    Nat.mod_eq_of_lt h10, Nat.mod_eq_of_lt h11]

/-! ### Parsing the serializer's output, one shape at a time -/

theorem parse_shape_plain (h : HeaderData) (p : List Nat)
    (hmagic : h.magic = PROTOCOL_MAGIC) (hver : h.version = PROTOCOL_VERSION)
    (hrange : headerInRange h)
    (hm : h.flags &&& FLAG_HAS_METADATA = 0)
    (hc : h.flags &&& FLAG_HAS_CODEC_DATA = 0)
    (hhs : h.header_size = calculateHeaderSize h.flags)
    (hlen : 36 ≤ 32 + p.length) :
    parseData (serializeHeaderBytes h ++ p) =
      { valid := true, header := some h, metadata := none, codec_data := none,
        payload := some p, payload_size := p.length } := by
  have hcalc : calculateHeaderSize h.flags = 32 := by
    simp [calculateHeaderSize, hm, hc, HEADER_DATA_SIZE]
  have hlen' : (serializeHeaderBytes h ++ p).length = 32 + p.length := by simp
  have hread : readHeader (serializeHeaderBytes h ++ p) = h :=
    readHeader_exact h _ hmagic hver hrange (by omega)
  have hvh : validateHeader h (serializeHeaderBytes h ++ p).length = true := by
    rw [validateHeader_eq_true_iff]
    exact ⟨hmagic, hver, hhs, by omega⟩
  have hdrop : (serializeHeaderBytes h ++ p).drop 32 = p := by
    rw [show (32 : Nat) = (serializeHeaderBytes h).length from by simp, List.drop_left]
  unfold parseData
  rw [if_neg (by omega)]
  simp only [hread, hvh, hm, hc, HEADER_DATA_SIZE, HEADER_METADATA_SIZE,
    HEADER_CODEC_DATA_SIZE]
  simp [hdrop]

theorem parse_shape_meta (h : HeaderData) (mb p : List Nat) (hmb : mb.length = 64)
    (hmagic : h.magic = PROTOCOL_MAGIC) (hver : h.version = PROTOCOL_VERSION)
    (hrange : headerInRange h)
    (hm : h.flags &&& FLAG_HAS_METADATA ≠ 0)
    (hc : h.flags &&& FLAG_HAS_CODEC_DATA = 0)
    (hhs : h.header_size = calculateHeaderSize h.flags) :
    parseData (serializeHeaderBytes h ++ (mb ++ p)) =
      { valid := true, header := some h,
        metadata := some (fixedBytesToString mb), codec_data := none,
        payload := some p, payload_size := p.length } := by
  have hcalc : calculateHeaderSize h.flags = 96 := by
    simp [calculateHeaderSize, hm, hc, HEADER_DATA_SIZE, HEADER_METADATA_SIZE]
  have hlen' : (serializeHeaderBytes h ++ (mb ++ p)).length = 96 + p.length := by
    simp [hmb]; omega
  have hread : readHeader (serializeHeaderBytes h ++ (mb ++ p)) = h :=
    readHeader_exact h _ hmagic hver hrange (by omega)
  have hvh : validateHeader h (serializeHeaderBytes h ++ (mb ++ p)).length = true := by
    rw [validateHeader_eq_true_iff]
    exact ⟨hmagic, hver, hhs, by omega⟩
  have hdrop96 : (serializeHeaderBytes h ++ (mb ++ p)).drop 96 = p := by
    have e : serializeHeaderBytes h ++ (mb ++ p) =
        (serializeHeaderBytes h ++ mb) ++ p := by simp
    rw [e, show (96 : Nat) = (serializeHeaderBytes h ++ mb).length from by simp [hmb],
      List.drop_left]
  unfold parseData
  rw [if_neg (by omega)]
  simp only [hread, hvh, hm, hc, HEADER_DATA_SIZE, HEADER_METADATA_SIZE,
    HEADER_CODEC_DATA_SIZE]
  simp only [Bool.true_eq_false, if_false, ne_eq, not_true_eq_false,
    not_false_eq_true]
  rw [if_neg (by omega)]
  have hdrop32 : (serializeHeaderBytes h ++ (mb ++ p)).drop 32 = mb ++ p := by
    rw [show (32 : Nat) = (serializeHeaderBytes h).length from by simp, List.drop_left]
  have hslice : (mb ++ p).take 64 = mb := by
    rw [show (64 : Nat) = mb.length from hmb.symm, List.take_left]
  simp [hm, hdrop32, hslice, hdrop96, hmb]

theorem parse_shape_codec (h : HeaderData) (c : HeaderCodecData) (p : List Nat)
    (hmagic : h.magic = PROTOCOL_MAGIC) (hver : h.version = PROTOCOL_VERSION)
    (hrange : headerInRange h) (hcr : codecInRange c)
    (hm : h.flags &&& FLAG_HAS_METADATA = 0)
    (hc : h.flags &&& FLAG_HAS_CODEC_DATA ≠ 0)
    (hhs : h.header_size = calculateHeaderSize h.flags) :
    parseData (serializeHeaderBytes h ++ (serializeCodecBytes c ++ p)) =
      { valid := true, header := some h, metadata := none,
        codec_data := some c, payload := some p, payload_size := p.length } := by
  have hcalc : calculateHeaderSize h.flags = 56 := by
    simp [calculateHeaderSize, hm, hc, HEADER_DATA_SIZE, HEADER_CODEC_DATA_SIZE]
  have hlen' : (serializeHeaderBytes h ++ (serializeCodecBytes c ++ p)).length =
      56 + p.length := by simp; omega
  have hread : readHeader (serializeHeaderBytes h ++ (serializeCodecBytes c ++ p)) = h :=
    readHeader_exact h _ hmagic hver hrange (by omega)
  have hvh : validateHeader h
      (serializeHeaderBytes h ++ (serializeCodecBytes c ++ p)).length = true := by
    rw [validateHeader_eq_true_iff]
    exact ⟨hmagic, hver, hhs, by omega⟩
  have hcodec : readCodec (serializeHeaderBytes h ++ (serializeCodecBytes c ++ p)) 32 = c :=
    readCodec_exact c _ p (by simp) hcr
  have hdrop56 : (serializeHeaderBytes h ++ (serializeCodecBytes c ++ p)).drop 56 = p := by
    have e : serializeHeaderBytes h ++ (serializeCodecBytes c ++ p) =
        (serializeHeaderBytes h ++ serializeCodecBytes c) ++ p := by simp
    rw [e, show (56 : Nat) = (serializeHeaderBytes h ++ serializeCodecBytes c).length
      from by simp, List.drop_left]
  unfold parseData
  rw [if_neg (by omega)]
  simp only [hread, hvh, hm, hc, HEADER_DATA_SIZE, HEADER_METADATA_SIZE,
    HEADER_CODEC_DATA_SIZE]
  simp [hm, hc, hcodec, hdrop56]
  intro hx
  exact absurd hx (by omega)

theorem parse_shape_both (h : HeaderData) (mb : List Nat) (c : HeaderCodecData)
    (p : List Nat) (hmb : mb.length = 64)
    (hmagic : h.magic = PROTOCOL_MAGIC) (hver : h.version = PROTOCOL_VERSION)
    (hrange : headerInRange h) (hcr : codecInRange c)
    (hm : h.flags &&& FLAG_HAS_METADATA ≠ 0)
    (hc : h.flags &&& FLAG_HAS_CODEC_DATA ≠ 0)
    (hhs : h.header_size = calculateHeaderSize h.flags) :
    parseData (serializeHeaderBytes h ++ (mb ++ (serializeCodecBytes c ++ p))) =
      { valid := true, header := some h,
        metadata := some (fixedBytesToString mb), codec_data := some c,
        payload := some p, payload_size := p.length } := by
  have hcalc : calculateHeaderSize h.flags = 120 := by
    simp [calculateHeaderSize, hm, hc, HEADER_DATA_SIZE, HEADER_METADATA_SIZE,
      HEADER_CODEC_DATA_SIZE]
  have hlen' : (serializeHeaderBytes h ++ (mb ++ (serializeCodecBytes c ++ p))).length =
      120 + p.length := by simp [hmb]; omega
  have hread : readHeader
      (serializeHeaderBytes h ++ (mb ++ (serializeCodecBytes c ++ p))) = h :=
    readHeader_exact h _ hmagic hver hrange (by omega)
  have hvh : validateHeader h
      (serializeHeaderBytes h ++ (mb ++ (serializeCodecBytes c ++ p))).length = true := by
    rw [validateHeader_eq_true_iff]
    exact ⟨hmagic, hver, hhs, by omega⟩
  have hcodec : readCodec
      (serializeHeaderBytes h ++ (mb ++ (serializeCodecBytes c ++ p))) 96 = c := by
    have e : serializeHeaderBytes h ++ (mb ++ (serializeCodecBytes c ++ p)) =
        (serializeHeaderBytes h ++ mb) ++ (serializeCodecBytes c ++ p) := by simp
    rw [e]
    exact readCodec_exact c _ p (by simp [hmb]) hcr
  have hdrop32 : (serializeHeaderBytes h ++ (mb ++ (serializeCodecBytes c ++ p))).drop 32 =
      mb ++ (serializeCodecBytes c ++ p) := by
    rw [show (32 : Nat) = (serializeHeaderBytes h).length from by simp, List.drop_left]
  have hslice : (mb ++ (serializeCodecBytes c ++ p)).take 64 = mb := by
    rw [show (64 : Nat) = mb.length from hmb.symm, List.take_left]
  have hdrop120 : (serializeHeaderBytes h ++ (mb ++ (serializeCodecBytes c ++ p))).drop 120 =
      p := by
    have e : serializeHeaderBytes h ++ (mb ++ (serializeCodecBytes c ++ p)) =
        (serializeHeaderBytes h ++ mb ++ serializeCodecBytes c) ++ p := by simp
    rw [e, show (120 : Nat) =
      (serializeHeaderBytes h ++ mb ++ serializeCodecBytes c).length from by simp [hmb],
      List.drop_left]
  unfold parseData
  rw [if_neg (by omega)]
  simp only [hread, hvh, hm, hc, HEADER_DATA_SIZE, HEADER_METADATA_SIZE,
    HEADER_CODEC_DATA_SIZE]
  simp [hm, hc, hdrop32, hslice, hcodec, hdrop120, hmb]
  rw [if_neg (by omega), if_neg (by omega)]

/-! ### Claim C4 -/

/-- C4 (amended: the parser's actual minimum buffer length is 36 bytes, not
32): `parseData` yields a valid result exactly when the buffer holds at
least 36 bytes, the magic is `0x4D534553`, the version is 1, the declared
`header_size` equals `32 + 64·m + 24·c` computed from flag bits m
(`HAS_METADATA`) and c (`HAS_CODEC_DATA`), and the total length is at least
`header_size`; in all other cases the result is invalid. -/
theorem parseData_valid_iff (data : List Nat) :
    (parseData data).valid = true ↔
      (36 ≤ data.length ∧ rdU32 data 0 = PROTOCOL_MAGIC ∧
       rdU16 data 24 = PROTOCOL_VERSION ∧
       rdU16 data 26 = calculateHeaderSize (rdU32 data 4) ∧
       rdU16 data 26 ≤ data.length) := by
  unfold parseData
  by_cases h36 : data.length < 36
  · rw [if_pos h36]
    simp only [invalidParse]
    constructor
    · intro hx; exact absurd hx (by simp)
    · rintro ⟨hx, -⟩; omega
  · rw [if_neg h36]
    by_cases hv : validateHeader (readHeader data) data.length = false
    · have hnv : ¬ (rdU32 data 0 = PROTOCOL_MAGIC ∧ rdU16 data 24 = PROTOCOL_VERSION ∧
          rdU16 data 26 = calculateHeaderSize (rdU32 data 4) ∧
          rdU16 data 26 ≤ data.length) := by
        rintro ⟨h1, h2, h3, h4⟩
        have ht : validateHeader (readHeader data) data.length = true :=
          (validateHeader_eq_true_iff _ _).mpr ⟨h1, h2, h3, h4⟩
        rw [ht] at hv
        exact absurd hv (by simp)
      simp only [hv, if_true, if_pos rfl]
      simp only [invalidParse]
      constructor
      · intro hx; exact absurd hx (by simp)
      · rintro ⟨-, h2, h3, h4, h5⟩; exact absurd ⟨h2, h3, h4, h5⟩ hnv
    · have hv' : validateHeader (readHeader data) data.length = true := by
        revert hv; cases hxx : validateHeader (readHeader data) data.length <;> simp
      obtain ⟨hmg, hvr, hhs, hle⟩ := (validateHeader_eq_true_iff _ _).mp hv'
      simp only [hv', Bool.true_eq_false, if_false]
      constructor
      all_goals intro hgoal
      · exact ⟨by omega, hmg, hvr, hhs, hle⟩
      · by_cases hm : (readHeader data).flags &&& FLAG_HAS_METADATA ≠ 0 <;>
          by_cases hcf : (readHeader data).flags &&& FLAG_HAS_CODEC_DATA ≠ 0
        · have hcalc : calculateHeaderSize (readHeader data).flags = 120 := by
            simp [calculateHeaderSize, hm, hcf, HEADER_DATA_SIZE,
              HEADER_METADATA_SIZE, HEADER_CODEC_DATA_SIZE]
          have hL : 120 ≤ data.length := by have := hhs; omega
          simp only [HEADER_DATA_SIZE, HEADER_METADATA_SIZE, HEADER_CODEC_DATA_SIZE]
          rw [if_neg (by rintro ⟨-, hlt⟩; omega)]
          rw [if_pos hm, if_neg (by rintro ⟨-, hlt⟩; omega)]
        · have hcalc : calculateHeaderSize (readHeader data).flags = 96 := by
            simp [calculateHeaderSize, hm, hcf, HEADER_DATA_SIZE, HEADER_METADATA_SIZE]
          have hL : 96 ≤ data.length := by have := hhs; omega
          simp only [HEADER_DATA_SIZE, HEADER_METADATA_SIZE, HEADER_CODEC_DATA_SIZE]
          rw [if_neg (by rintro ⟨-, hlt⟩; omega)]
          simp [hcf]
        · have hcalc : calculateHeaderSize (readHeader data).flags = 56 := by
            simp [calculateHeaderSize, hm, hcf, HEADER_DATA_SIZE, HEADER_CODEC_DATA_SIZE]
          have hL : 56 ≤ data.length := by have := hhs; omega
          simp only [HEADER_DATA_SIZE, HEADER_METADATA_SIZE, HEADER_CODEC_DATA_SIZE]
          simp only [hm]
          rw [if_neg (by rintro ⟨hx, -⟩; simp at hx)]
          simp only [if_false]
          rw [if_neg (by rintro ⟨-, hlt⟩; omega)]
        · simp only [HEADER_DATA_SIZE, HEADER_METADATA_SIZE, HEADER_CODEC_DATA_SIZE]
          simp [hm, hcf]

/-- C4 (counterexample to the claim as stated): a 32-byte buffer that
passes every check the claim enumerates (length ≥ 32, correct magic,
version, `header_size = 32` matching its clear flags, and length ≥
`header_size`), yet `parseData` rejects it — the code's minimum is 36
bytes. -/
theorem parseData_32byte_counterexample :
    (32 ≤ cexBufferC4.length ∧ rdU32 cexBufferC4 0 = PROTOCOL_MAGIC ∧
     rdU16 cexBufferC4 24 = PROTOCOL_VERSION ∧
     rdU16 cexBufferC4 26 = calculateHeaderSize (rdU32 cexBufferC4 4) ∧
     rdU16 cexBufferC4 26 ≤ cexBufferC4.length) ∧
    (parseData cexBufferC4).valid = false := by decide

/-! ### Claim C1 -/

/-- C1 (counterexample to the claim as stated): the header with only the
keyframe flag (a valid flag combination, metadata and codec data absent as
the flags say, empty payload) serializes to a 32-byte buffer that its own
parser rejects, because 32 < 36. -/
theorem roundtrip_fails_below_36 :
    serialize cexHeaderC1 none none (some []) = some cexBufferC1 ∧
    cexBufferC1.length = 32 ∧
    (parseData cexBufferC1).valid = false := by decide

/-- C1 (amended): for every header with correct magic/version, in-range
fields, `header_size` matching its flags, optional blocks present exactly
as the flags demand and in range, and a total serialized size of at least
36 bytes, parsing the serializer's output yields a valid packet whose
header and codec data equal the input, whose payload is byte-for-byte
equal, and whose metadata is the input truncated at 63 bytes and cut at
its first null byte. -/
theorem serialize_parse_roundtrip (h : HeaderData) (md : Option (List Nat))
    (cd : Option HeaderCodecData) (p : List Nat)
    (hmagic : h.magic = PROTOCOL_MAGIC) (hver : h.version = PROTOCOL_VERSION)
    (hrange : headerInRange h)
    (hhs : h.header_size = calculateHeaderSize h.flags)
    (hmd : md.isSome = true ↔ h.flags &&& FLAG_HAS_METADATA ≠ 0)
    (hcd : cd.isSome = true ↔ h.flags &&& FLAG_HAS_CODEC_DATA ≠ 0)
    (hcr : ∀ c ∈ cd, codecInRange c)
    (hlen : 36 ≤ calculateHeaderSize h.flags + p.length) :
    ∃ b, serialize h md cd (some p) = some b ∧
      parseData b =
        { valid := true, header := some h,
          metadata := md.map metadataTruncated, codec_data := cd,
          payload := some p, payload_size := p.length } := by
  rcases md with - | m <;> rcases cd with - | c
  · -- no metadata, no codec data
    have hm : h.flags &&& FLAG_HAS_METADATA = 0 := by
      by_contra hx; exact absurd (hmd.mpr hx) (by simp)
    have hc : h.flags &&& FLAG_HAS_CODEC_DATA = 0 := by
      by_contra hx; exact absurd (hcd.mpr hx) (by simp)
    have hcalc : calculateHeaderSize h.flags = 32 := by
      simp [calculateHeaderSize, hm, hc, HEADER_DATA_SIZE]
    have hup : ({ h with header_size := 32 } : HeaderData) = h := by
      have h32 : h.header_size = 32 := by rw [hhs, hcalc]
      cases h; simp_all
    have hser : serialize h none none (some p) =
        some (serializeHeaderBytes h ++ p) := by
      simp [serialize, hm, hc, HEADER_DATA_SIZE, hup]
    refine ⟨_, hser, ?_⟩
    rw [parse_shape_plain h p hmagic hver hrange hm hc hhs (by omega)]
    simp
  · -- codec data only
    have hm : h.flags &&& FLAG_HAS_METADATA = 0 := by
      by_contra hx; exact absurd (hmd.mpr hx) (by simp)
    have hc : h.flags &&& FLAG_HAS_CODEC_DATA ≠ 0 := hcd.mp (by simp)
    have hcalc : calculateHeaderSize h.flags = 56 := by
      simp [calculateHeaderSize, hm, hc, HEADER_DATA_SIZE, HEADER_CODEC_DATA_SIZE]
    have hup : ({ h with header_size := 56 } : HeaderData) = h := by
      have h56 : h.header_size = 56 := by rw [hhs, hcalc]
      cases h; simp_all
    have hser : serialize h none (some c) (some p) =
        some (serializeHeaderBytes h ++ (serializeCodecBytes c ++ p)) := by
      simp [serialize, hm, hc, HEADER_DATA_SIZE, HEADER_CODEC_DATA_SIZE, hup]
    refine ⟨_, hser, ?_⟩
    rw [parse_shape_codec h c p hmagic hver hrange (hcr c (by simp)) hm hc hhs]
    simp
  · -- metadata only
    have hm : h.flags &&& FLAG_HAS_METADATA ≠ 0 := hmd.mp (by simp)
    have hc : h.flags &&& FLAG_HAS_CODEC_DATA = 0 := by
      by_contra hx; exact absurd (hcd.mpr hx) (by simp)
    have hcalc : calculateHeaderSize h.flags = 96 := by
      simp [calculateHeaderSize, hm, hc, HEADER_DATA_SIZE, HEADER_METADATA_SIZE]
    have hup : ({ h with header_size := 96 } : HeaderData) = h := by
      have h96 : h.header_size = 96 := by rw [hhs, hcalc]
      cases h; simp_all
    have hser : serialize h (some m) none (some p) =
        some (serializeHeaderBytes h ++
          (stringToFixedBytes m HEADER_METADATA_SIZE ++ p)) := by
      simp [serialize, hm, hc, HEADER_DATA_SIZE, HEADER_METADATA_SIZE, hup]
    refine ⟨_, hser, ?_⟩
    rw [parse_shape_meta h (stringToFixedBytes m HEADER_METADATA_SIZE) p
      (length_stringToFixedBytes m _ (by norm_num [HEADER_METADATA_SIZE]))
      hmagic hver hrange hm hc hhs]
    simp [fixedBytes_roundtrip, metadataTruncated]
  · -- metadata and codec data
    have hm : h.flags &&& FLAG_HAS_METADATA ≠ 0 := hmd.mp (by simp)
    have hc : h.flags &&& FLAG_HAS_CODEC_DATA ≠ 0 := hcd.mp (by simp)
    have hcalc : calculateHeaderSize h.flags = 120 := by
      simp [calculateHeaderSize, hm, hc, HEADER_DATA_SIZE, HEADER_METADATA_SIZE,
        HEADER_CODEC_DATA_SIZE]
    have hup : ({ h with header_size := 120 } : HeaderData) = h := by
      have h120 : h.header_size = 120 := by rw [hhs, hcalc]
      cases h; simp_all
    have hser : serialize h (some m) (some c) (some p) =
        some (serializeHeaderBytes h ++
          (stringToFixedBytes m HEADER_METADATA_SIZE ++
            (serializeCodecBytes c ++ p))) := by
      simp [serialize, hm, hc, HEADER_DATA_SIZE, HEADER_METADATA_SIZE,
        HEADER_CODEC_DATA_SIZE, hup]
    refine ⟨_, hser, ?_⟩
    rw [parse_shape_both h (stringToFixedBytes m HEADER_METADATA_SIZE) c p
      (length_stringToFixedBytes m _ (by norm_num [HEADER_METADATA_SIZE]))
      hmagic hver hrange (hcr c (by simp)) hm hc hhs]
    simp [fixedBytes_roundtrip, metadataTruncated]

/-- C1 witness: the round-trip theorem applied to a concrete keyframe
packet carrying metadata, codec data and a payload. -/
theorem serialize_parse_roundtrip_witness :
    ∃ b, serialize (initHeader 1 7 123 7) (some [72, 105]) (some wCodec)
        (some [9, 8]) = some b ∧
      parseData b =
        { valid := true, header := some (initHeader 1 7 123 7),
          metadata := (some [72, 105]).map metadataTruncated,
          codec_data := some wCodec, payload := some [9, 8],
          payload_size := [9, 8].length } :=
  serialize_parse_roundtrip (initHeader 1 7 123 7) (some [72, 105]) (some wCodec)
    [9, 8] (by decide) (by decide) (by decide) (by decide) (by decide) (by decide)
    (by decide) (by decide)

/-! ### Claim C7 -/

/-- A serialized packet whose written `header_size` disagrees with the
size its flags demand is rejected by the parser. -/
theorem parse_invalid_of_hs_mismatch (h : HeaderData) (rest : List Nat)
    (hflags : h.flags < 2 ^ 32) (hhs16 : h.header_size < 2 ^ 16)
    (hne : h.header_size ≠ calculateHeaderSize h.flags) :
    (parseData (serializeHeaderBytes h ++ rest)).valid = false := by
  cases hvalid : (parseData (serializeHeaderBytes h ++ rest)).valid
  · rfl
  · exfalso
    obtain ⟨-, -, -, h4, -⟩ := (parseData_valid_iff _).mp hvalid
    have e4 : rdU32 (serializeHeaderBytes h ++ rest) 4 = h.flags :=
      (congrArg HeaderData.flags (readHeader_serializeHeaderBytes h rest)).trans
        (Nat.mod_eq_of_lt hflags)
    have e26 : rdU16 (serializeHeaderBytes h ++ rest) 26 = h.header_size :=
      (congrArg HeaderData.header_size (readHeader_serializeHeaderBytes h rest)).trans
        (Nat.mod_eq_of_lt hhs16)
    rw [e4, e26] at h4
    exact hne h4

/-- C7 (counterexample to the claim as stated): with `HAS_METADATA` set and
no metadata argument, `serialize` does not fail — it returns a byte
buffer. -/
theorem serialize_no_failure_on_missing_block :
    cexHeaderC7.flags &&& FLAG_HAS_METADATA ≠ 0 ∧
    (serialize cexHeaderC7 none none none).isSome = true := by decide

/-- C7 (amended): when a header flag announces a block whose argument is
absent, `serialize` does not fail; it emits a buffer that omits the block,
and whose declared `header_size` therefore contradicts its flags, so the
parser rejects that buffer. -/
theorem serialize_missing_block_parses_invalid (h : HeaderData)
    (md : Option (List Nat)) (cd : Option HeaderCodecData) (p : Option (List Nat))
    (hflags : h.flags < 2 ^ 32)
    (hmiss : (h.flags &&& FLAG_HAS_METADATA ≠ 0 ∧ md = none) ∨
             (h.flags &&& FLAG_HAS_CODEC_DATA ≠ 0 ∧ cd = none)) :
    ∃ b, serialize h md cd p = some b ∧ (parseData b).valid = false := by
  rcases hmiss with ⟨hf2, rfl⟩ | ⟨hf1, rfl⟩
  · -- metadata announced but absent
    by_cases hic : cd.isSome = true ∧ h.flags &&& FLAG_HAS_CODEC_DATA ≠ 0
    · obtain ⟨c, rfl⟩ : ∃ c, cd = some c := by
        rcases cd with - | c
        · exact absurd hic.1 (by simp)
        · exact ⟨c, rfl⟩
      have hser : serialize h none (some c) p =
          some (serializeHeaderBytes { h with header_size := 56 } ++
            (serializeCodecBytes c ++ p.getD [])) := by
        simp [serialize, hic.2, HEADER_DATA_SIZE, HEADER_CODEC_DATA_SIZE]
      refine ⟨_, hser, ?_⟩
      apply parse_invalid_of_hs_mismatch
      · simpa using hflags
      · norm_num
      · have : 96 ≤ calculateHeaderSize h.flags := by
          unfold calculateHeaderSize HEADER_DATA_SIZE HEADER_METADATA_SIZE
          rw [if_pos hf2]
          split_ifs <;> omega
        simp only []
        omega
    · have hser : serialize h none cd p =
          some (serializeHeaderBytes { h with header_size := 32 } ++ p.getD []) := by
        simp [serialize, hic, HEADER_DATA_SIZE]
      refine ⟨_, hser, ?_⟩
      apply parse_invalid_of_hs_mismatch
      · simpa using hflags
      · norm_num
      · have : 96 ≤ calculateHeaderSize h.flags := by
          unfold calculateHeaderSize HEADER_DATA_SIZE HEADER_METADATA_SIZE
          rw [if_pos hf2]
          split_ifs <;> omega
        simp only []
        omega
  · -- codec data announced but absent
    by_cases him : md.isSome = true ∧ h.flags &&& FLAG_HAS_METADATA ≠ 0
    · obtain ⟨m, rfl⟩ : ∃ m, md = some m := by
        rcases md with - | m
        · exact absurd him.1 (by simp)
        · exact ⟨m, rfl⟩
      have hser : serialize h (some m) none p =
          some (serializeHeaderBytes { h with header_size := 96 } ++
            (stringToFixedBytes m HEADER_METADATA_SIZE ++ p.getD [])) := by
        simp [serialize, him.2, HEADER_DATA_SIZE, HEADER_METADATA_SIZE]
      refine ⟨_, hser, ?_⟩
      apply parse_invalid_of_hs_mismatch
      · simpa using hflags
      · norm_num
      · have : 120 ≤ calculateHeaderSize h.flags := by
          unfold calculateHeaderSize HEADER_DATA_SIZE HEADER_METADATA_SIZE
            HEADER_CODEC_DATA_SIZE
          rw [if_pos hf1, if_pos him.2]
        simp only []
        omega
    · have hser : serialize h md none p =
          some (serializeHeaderBytes { h with header_size := 32 } ++ p.getD []) := by
        simp [serialize, him, HEADER_DATA_SIZE]
      refine ⟨_, hser, ?_⟩
      apply parse_invalid_of_hs_mismatch
      · simpa using hflags
      · norm_num
      · have : 56 ≤ calculateHeaderSize h.flags := by
          unfold calculateHeaderSize HEADER_DATA_SIZE HEADER_CODEC_DATA_SIZE
          rw [if_pos hf1]
          split_ifs <;> omega
        simp only []
        omega

/-! ### Claim C10 -/

theorem rdU8_drop (b : List Nat) (n i : Nat) :
    rdU8 (b.drop n) i = rdU8 b (n + i) := by
  simp [rdU8, List.getD_eq_getElem?_getD, List.getElem?_drop]

theorem rdU16_drop (b : List Nat) (n i : Nat) :
    rdU16 (b.drop n) i = rdU16 b (n + i) := by
  unfold rdU16
  rw [rdU8_drop, rdU8_drop, show n + (i + 1) = n + i + 1 from by omega]

theorem rdU8_take_append (b X : List Nat) (n i : Nat) (hi : i < n)
    (hn : n ≤ b.length) : rdU8 (b.take n ++ X) i = rdU8 b i := by
  have hlen : i < (b.take n).length := by simp; omega
  unfold rdU8
  rw [List.getD_append _ _ _ _ hlen]
  simp [List.getD_eq_getElem?_getD, List.getElem?_take_of_lt hi]

theorem rdU16_take_append (b X : List Nat) (n i : Nat) (hi : i + 1 < n)
    (hn : n ≤ b.length) : rdU16 (b.take n ++ X) i = rdU16 b i := by
  unfold rdU16
  rw [rdU8_take_append b X n i (by omega) hn, rdU8_take_append b X n (i + 1) hi hn]

theorem rdU32_take_append (b X : List Nat) (n i : Nat) (hi : i + 3 < n)
    (hn : n ≤ b.length) : rdU32 (b.take n ++ X) i = rdU32 b i := by
  unfold rdU32
  rw [rdU16_take_append b X n i (by omega) hn,
    rdU16_take_append b X n (i + 2) (by omega) hn]

theorem calculateHeaderSize_mod (f k : Nat) (hk : 2 ≤ k) :
    calculateHeaderSize (f % 2 ^ k) = calculateHeaderSize f := by
  have h1 : f % 2 ^ k &&& 1 = f &&& 1 := by
    rw [Nat.and_one_is_mod, Nat.and_one_is_mod,
      Nat.mod_mod_of_dvd f (dvd_pow_self 2 (by omega : k ≠ 0))]
  have h2 : f % 2 ^ k &&& 2 = f &&& 2 := by
    have h2p : f % 2 ^ k &&& 2 ^ 1 = f &&& 2 ^ 1 := by
      rw [Nat.and_two_pow, Nat.and_two_pow, Nat.testBit_mod_two_pow,
        decide_eq_true (by omega : 1 < k), Bool.true_and]
    simpa using h2p
  unfold calculateHeaderSize FLAG_HAS_METADATA FLAG_HAS_CODEC_DATA
  rw [h1, h2]

/-- C10: the parser never rejects a packet on account of reserved flag
bits: the expected header size depends only on flag bits 0 and 1, and
clearing all bits above bit 2 of the flags word never changes whether a
buffer parses as valid. -/
theorem parser_ignores_reserved_flag_bits :
    (∀ f : Nat, calculateHeaderSize f = calculateHeaderSize (f % 4)) ∧
    (∀ b : List Nat,
      (parseData (clearReservedFlagBits b)).valid = (parseData b).valid) := by
  constructor
  · intro f
    exact (calculateHeaderSize_mod f 2 (by norm_num)).symm
  · intro b
    by_cases h8 : 8 ≤ b.length
    · have hlen' : (clearReservedFlagBits b).length = b.length := by
        simp [clearReservedFlagBits]; omega
      have hassoc : clearReservedFlagBits b =
          b.take 4 ++ (u32le (rdU32 b 4 % 8) ++ b.drop 8) := by
        simp [clearReservedFlagBits]
      have e0 : rdU32 (clearReservedFlagBits b) 0 = rdU32 b 0 := by
        rw [hassoc, rdU32_take_append b _ 4 0 (by omega) (by omega)]
      have e4 : rdU32 (clearReservedFlagBits b) 4 = rdU32 b 4 % 8 := by
        rw [hassoc, rdU32_at (b.take 4) _ 4 (by simp; omega), rdU32_u32le]
        exact Nat.mod_eq_of_lt (by have := Nat.mod_lt (rdU32 b 4) (show 0 < 8 by norm_num); omega)
      have hpre : (b.take 4 ++ u32le (rdU32 b 4 % 8)).length = 8 := by
        simp; omega
      have hassoc2 : clearReservedFlagBits b =
          (b.take 4 ++ u32le (rdU32 b 4 % 8)) ++ b.drop 8 := by
        simp [clearReservedFlagBits]
      have e24 : rdU16 (clearReservedFlagBits b) 24 = rdU16 b 24 := by
        have hsh := rdU16_shift (b.take 4 ++ u32le (rdU32 b 4 % 8)) (b.drop 8) 16
        rw [hpre] at hsh
        rw [hassoc2, show (24 : Nat) = 8 + 16 from by norm_num, hsh, rdU16_drop]
      have e26 : rdU16 (clearReservedFlagBits b) 26 = rdU16 b 26 := by
        have hsh := rdU16_shift (b.take 4 ++ u32le (rdU32 b 4 % 8)) (b.drop 8) 18
        rw [hpre] at hsh
        rw [hassoc2, show (26 : Nat) = 8 + 18 from by norm_num, hsh, rdU16_drop]
      have h1 := parseData_valid_iff b
      have h2 := parseData_valid_iff (clearReservedFlagBits b)
      have hc8 : calculateHeaderSize (rdU32 b 4 % 8) = calculateHeaderSize (rdU32 b 4) := by
        have := calculateHeaderSize_mod (rdU32 b 4) 3 (by norm_num)
        norm_num at this
        exact this
      rw [hlen', e0, e4, e24, e26, hc8] at h2
      rw [← h1] at h2
      cases hx : (parseData b).valid <;>
        cases hy : (parseData (clearReservedFlagBits b)).valid <;> simp_all
    · have hlb : (clearReservedFlagBits b).length < 36 := by
        simp [clearReservedFlagBits]; omega
      have h1 := parseData_valid_iff b
      have h2 := parseData_valid_iff (clearReservedFlagBits b)
      have hx : (parseData b).valid ≠ true := fun hc => by
        have := (h1.mp hc).1; omega
      have hy : (parseData (clearReservedFlagBits b)).valid ≠ true := fun hc => by
        have := (h2.mp hc).1; omega
      cases hxx : (parseData b).valid <;>
        cases hyy : (parseData (clearReservedFlagBits b)).valid <;> simp_all

/-- C7 witness: the amended theorem applied to the concrete
metadata-announcing header with no metadata. -/
theorem serialize_missing_block_parses_invalid_witness :
    ∃ b, serialize cexHeaderC7 none none none = some b ∧
      (parseData b).valid = false :=
  serialize_missing_block_parses_invalid cexHeaderC7 none none none (by decide)
    (Or.inl ⟨by decide, rfl⟩)

/-! ### Claim C8 -/

theorem toFloat64Int_of_small (n : Int) (h : n.natAbs ≤ 2 ^ 53) :
    toFloat64Int n = n := by
  have hulp : ∀ (f : Nat) (a : Nat), a ≤ 2 ^ 53 → ulpFuel (f + 1) a = 1 := by
    intro f a ha
    rw [show ulpFuel (f + 1) a = if a ≤ 2 ^ 53 then 1 else 2 * ulpFuel f (a / 2)
      from rfl, if_pos ha]
  unfold toFloat64Int
  dsimp only
  rw [show (128 : Nat) = 127 + 1 from rfl, hulp 127 n.natAbs h]
  simp only [Nat.div_one, Nat.mod_one, Nat.mul_one, Nat.mul_zero]
  rw [if_pos (by norm_num : 2 * 0 < 1)]
  rcases le_or_lt 0 n with hn | hn
  · rw [if_pos hn, Int.natAbs_of_nonneg hn]
  · rw [if_neg (by omega)]
    omega

/-- C8 (counterexample to the claim as stated): `rescaleTime(pts, tb, tb)`
is not `pts` for every 64-bit `pts` — at `pts = 2^53 + 1` (well inside 64
bits) the conversion of the result to a JavaScript `number` rounds to the
nearest representable double, `2^53`. -/
theorem rescaleTime_identity_counterexample :
    ((2 : Int) ^ 53 + 1).natAbs < 2 ^ 64 ∧
    rescaleTime (2 ^ 53 + 1) ⟨1, 1⟩ ⟨1, 1⟩ = some (2 ^ 53) ∧
    ((2 : Int) ^ 53 : Int) ≠ 2 ^ 53 + 1 := by decide

/-- C8 (amended): `rescaleTime 0 = 0` for positive timebases;
`rescaleTime pts tb tb = pts` exactly for nonzero timebases whenever
`|pts| ≤ 2^53` (the exactly representable doubles); and
`rescaleTime (90000·k, (1,90000), (1,1000000)) = 1000000·k` whenever
`1000000·k ≤ 2^53`. -/
theorem rescaleTime_properties :
    (∀ source target : Timebase,
      0 < source.num → 0 < source.den → 0 < target.num → 0 < target.den →
      rescaleTime 0 source target = some 0) ∧
    (∀ (pts : Int) (tb : Timebase), tb.num ≠ 0 → tb.den ≠ 0 →
      pts.natAbs ≤ 2 ^ 53 → rescaleTime pts tb tb = some pts) ∧
    (∀ k : Nat, (k : Int) * 1000000 ≤ 2 ^ 53 →
      rescaleTime (90000 * k) ⟨1, 90000⟩ ⟨1, 1000000⟩ = some (k * 1000000)) := by
  refine ⟨?_, ?_, ?_⟩
  · intro source target hsn hsd htn htd
    unfold rescaleTime
    rw [if_neg (by positivity)]
    norm_num [Int.zero_tdiv]
    exact toFloat64Int_of_small 0 (by norm_num)
  · intro pts tb hn hd
    intro hsmall
    unfold rescaleTime
    rw [if_neg (mul_ne_zero hd hn)]
    have he : (pts * tb.num * tb.den).tdiv (tb.den * tb.num) = pts := by
      rw [show pts * tb.num * tb.den = pts * (tb.den * tb.num) from by ring]
      exact Int.mul_tdiv_cancel pts (mul_ne_zero hd hn)
    rw [he, toFloat64Int_of_small pts hsmall]
  · intro k hk
    unfold rescaleTime
    norm_num
    have he : ((90000 : Int) * k * 1000000).tdiv 90000 = k * 1000000 := by
      rw [show (90000 : Int) * k * 1000000 = ((k : Int) * 1000000) * 90000
        from by ring]
      exact Int.mul_tdiv_cancel _ (by norm_num)
    rw [he, toFloat64Int_of_small _ (by
      have : ((k : Int) * 1000000).natAbs = k * 1000000 := by
        rw [Int.natAbs_mul]
        rfl
      omega)]

/-! ### Scheduler infrastructure -/

@[simp] theorem trackBufferSize_buffer (s : SchedulerState) :
    (trackBufferSize s).buffer = s.buffer := rfl

@[simp] theorem trackBufferSize_maxBufferSize (s : SchedulerState) :
    (trackBufferSize s).maxBufferSize = s.maxBufferSize := rfl

@[simp] theorem trackBufferSize_startRealTimeUs (s : SchedulerState) :
    (trackBufferSize s).startRealTimeUs = s.startRealTimeUs := rfl

@[simp] theorem trackBufferSize_startStreamTimeUs (s : SchedulerState) :
    (trackBufferSize s).startStreamTimeUs = s.startStreamTimeUs := rfl

@[simp] theorem trackBufferSize_bufferDelayMs (s : SchedulerState) :
    (trackBufferSize s).bufferDelayMs = s.bufferDelayMs := rfl

@[simp] theorem syncInit_buffer (s : SchedulerState) (r : Rat) :
    (syncInit s r).buffer = s.buffer := by
  unfold syncInit; split_ifs <;> rfl

@[simp] theorem syncInit_maxBufferSize (s : SchedulerState) (r : Rat) :
    (syncInit s r).maxBufferSize = s.maxBufferSize := by
  unfold syncInit; split_ifs <;> rfl

@[simp] theorem syncInit_bufferDelayMs (s : SchedulerState) (r : Rat) :
    (syncInit s r).bufferDelayMs = s.bufferDelayMs := by
  unfold syncInit; split_ifs <;> rfl

@[simp] theorem correctDrift_buffer (s : SchedulerState) :
    (correctDrift s).buffer = s.buffer := by
  unfold correctDrift
  rcases s.startStreamTimeUs with - | ss
  · rfl
  · dsimp only
    split_ifs <;> rfl

@[simp] theorem correctDrift_maxBufferSize (s : SchedulerState) :
    (correctDrift s).maxBufferSize = s.maxBufferSize := by
  unfold correctDrift
  rcases s.startStreamTimeUs with - | ss
  · rfl
  · dsimp only
    split_ifs <;> rfl

theorem dropOverflow_append (buf : List QFrame) (m : Nat) :
    (dropOverflow buf m).2 ++ (dropOverflow buf m).1 = buf := by
  induction buf with
  | nil => rfl
  | cons x rest ih =>
    unfold dropOverflow
    split_ifs with hge
    · dsimp only
      rw [List.cons_append, ih]
    · rfl

theorem dropOverflow_length (buf : List QFrame) (m : Nat) (hm : 1 ≤ m) :
    (dropOverflow buf m).1.length < m := by
  induction buf with
  | nil => simpa [dropOverflow] using hm
  | cons x rest ih =>
    unfold dropOverflow
    split_ifs with hge
    · exact ih
    · simpa using by omega

theorem dropOverflow_of_lt (buf : List QFrame) (m : Nat) (h : buf.length < m) :
    dropOverflow buf m = (buf, []) := by
  cases buf with
  | nil => rfl
  | cons x rest =>
    unfold dropOverflow
    rw [if_neg (by simp at h; omega)]

theorem dropOverflow_at_capacity (buf : List QFrame) (m : Nat) (hm : 1 ≤ m)
    (h : buf.length = m) :
    dropOverflow buf m = (buf.tail, [buf.headD default]) := by
  cases buf with
  | nil => simp at h; omega
  | cons x rest =>
    unfold dropOverflow
    rw [if_pos (by simp at h; omega)]
    rw [dropOverflow_of_lt rest m (by simp at h; omega)]
    rfl

@[simp] theorem setBufferDelay_buffer (s : SchedulerState) (d : Rat) :
    (s.setBufferDelay d).buffer = s.buffer := by
  unfold SchedulerState.setBufferDelay
  dsimp only
  split_ifs <;> rfl

@[simp] theorem setBufferDelay_maxBufferSize (s : SchedulerState) (d : Rat) :
    (s.setBufferDelay d).maxBufferSize = s.maxBufferSize := by
  unfold SchedulerState.setBufferDelay
  dsimp only
  split_ifs <;> rfl

/-- A dequeue never grows the buffer and never changes the capacity. -/
theorem dequeue_buffer_shrinks (s : SchedulerState) (t : Rat) :
    (s.dequeue t).2.1.buffer.length ≤ s.buffer.length ∧
    (s.dequeue t).2.1.maxBufferSize = s.maxBufferSize := by
  unfold SchedulerState.dequeue
  dsimp only
  split_ifs <;>
    first
      | exact ⟨Nat.le_refl _, rfl⟩
      | exact ⟨by simp, rfl⟩
      | (split
         · exact ⟨by simp, by simp⟩
         · constructor
           · simp only [correctDrift_buffer, trackBufferSize_buffer, syncInit_buffer,
               List.length_tail, List.length_drop]
             omega
           · simp)

/-! ### Claim C5 -/

/-- C5: the scheduler's buffer never holds more than `maxBufferSize`
entries.  First conjunct: a single operation from any state within the
bound stays within the bound, and the capacity is never mutated.  Second
conjunct: an enqueue that finds the buffer at capacity drops exactly the
oldest frame with reason 'overflow' and sets the sync point to `none`
before pushing the new frame.  Third conjunct: from a freshly constructed
scheduler (with positive capacity; every constructor default gives at
least 30), the bound holds after any operation sequence. -/
theorem scheduler_buffer_bounded :
    (∀ (s : SchedulerState) (op : SchedOp), 1 ≤ s.maxBufferSize →
      s.buffer.length ≤ s.maxBufferSize →
      (schedStep s op).1.buffer.length ≤ (schedStep s op).1.maxBufferSize ∧
      (schedStep s op).1.maxBufferSize = s.maxBufferSize) ∧
    (∀ (s : SchedulerState) (f : Nat) (ts : Rat), 1 ≤ s.maxBufferSize →
      s.buffer.length = s.maxBufferSize →
      (s.enqueue f ts).2 = [((s.buffer.headD default).frame, DropReason.overflow)] ∧
      (s.enqueue f ts).1.startRealTimeUs = none ∧
      (s.enqueue f ts).1.startStreamTimeUs = none ∧
      (s.enqueue f ts).1.buffer = s.buffer.tail ++ [⟨f, ts⟩]) ∧
    (∀ (d : Option Rat) (mx : Option Nat) (ci : Option Nat) (th : Option Rat)
      (ops : List SchedOp), 1 ≤ (mkScheduler d mx ci th).maxBufferSize →
      (schedRun (mkScheduler d mx ci th) ops).1.buffer.length ≤
        (mkScheduler d mx ci th).maxBufferSize) := by
  have hstep : ∀ (s : SchedulerState) (op : SchedOp), 1 ≤ s.maxBufferSize →
      s.buffer.length ≤ s.maxBufferSize →
      (schedStep s op).1.buffer.length ≤ (schedStep s op).1.maxBufferSize ∧
      (schedStep s op).1.maxBufferSize = s.maxBufferSize := by
    intro s op hm hb
    cases op with
    | enqueue f ts =>
      refine ⟨?_, rfl⟩
      show ((dropOverflow s.buffer s.maxBufferSize).1 ++
        [({ frame := f, timestamp := ts } : QFrame)]).length ≤ s.maxBufferSize
      have := dropOverflow_length s.buffer s.maxBufferSize hm
      simp only [List.length_append, List.length_cons, List.length_nil]
      omega
    | dequeue t =>
      have h := dequeue_buffer_shrinks s t
      refine ⟨?_, h.2⟩
      calc (s.dequeue t).2.1.buffer.length ≤ s.buffer.length := h.1
        _ ≤ s.maxBufferSize := hb
        _ = (s.dequeue t).2.1.maxBufferSize := h.2.symm
    | clear => exact ⟨Nat.zero_le _, rfl⟩
    | setBufferDelay d =>
      refine ⟨?_, ?_⟩
      · show (s.setBufferDelay d).buffer.length ≤ (s.setBufferDelay d).maxBufferSize
        rw [setBufferDelay_buffer, setBufferDelay_maxBufferSize]
        exact hb
      · show (s.setBufferDelay d).maxBufferSize = s.maxBufferSize
        rw [setBufferDelay_maxBufferSize]
  refine ⟨hstep, ?_, ?_⟩
  · intro s f ts hm hcap
    unfold SchedulerState.enqueue
    dsimp only
    rw [dropOverflow_at_capacity s.buffer s.maxBufferSize hm hcap]
    refine ⟨by simp, by simp, by simp, rfl⟩
  · intro d mx ci th ops hm
    have hrun : ∀ (s : SchedulerState) (ops : List SchedOp), 1 ≤ s.maxBufferSize →
        s.buffer.length ≤ s.maxBufferSize →
        (schedRun s ops).1.buffer.length ≤ s.maxBufferSize ∧
        (schedRun s ops).1.maxBufferSize = s.maxBufferSize := by
      intro s ops
      induction ops generalizing s with
      | nil => intro h1 h2; exact ⟨h2, rfl⟩
      | cons op rest ih =>
        intro h1 h2
        have hs := hstep s op h1 h2
        have hrest := ih (schedStep s op).1 (by omega) (by omega)
        unfold schedRun
        dsimp only
        exact ⟨by omega, by omega⟩
    exact (hrun _ ops hm (by simp [mkScheduler])).1

/-- C5 witness: the reachable-state bound applied to a capacity-2 scheduler
fed three frames. -/
theorem scheduler_buffer_bounded_witness :
    1 ≤ (mkScheduler none (some 2) none none).maxBufferSize ∧
    (schedRun (mkScheduler none (some 2) none none)
        [.enqueue 0 0, .enqueue 1 20000, .enqueue 2 40000]).1.buffer.length ≤
      (mkScheduler none (some 2) none none).maxBufferSize :=
  ⟨by decide,
   scheduler_buffer_bounded.2.2 none (some 2) none none
     [.enqueue 0 0, .enqueue 1 20000, .enqueue 2 40000] (by decide)⟩

/-- C8 witness: the amended properties applied at concrete timebases and
timestamps. -/
theorem rescaleTime_properties_witness :
    rescaleTime 0 ⟨1, 90000⟩ ⟨1, 1000000⟩ = some 0 ∧
    rescaleTime 90000 ⟨1, 90000⟩ ⟨1, 90000⟩ = some 90000 ∧
    rescaleTime (90000 * ((7 : Nat) : Int)) ⟨1, 90000⟩ ⟨1, 1000000⟩ =
      some (((7 : Nat) : Int) * 1000000) :=
  ⟨rescaleTime_properties.1 ⟨1, 90000⟩ ⟨1, 1000000⟩ (by norm_num) (by norm_num)
      (by norm_num) (by norm_num),
   rescaleTime_properties.2.1 90000 ⟨1, 90000⟩ (by norm_num) (by norm_num)
      (by decide),
   rescaleTime_properties.2.2 7 (by decide)⟩

/-! ### Claim C6 infrastructure -/


theorem coe_append_ms {α : Type} (l1 l2 : List α) :
    ((l1 ++ l2 : List α) : Multiset α) = (l1 : Multiset α) + (l2 : Multiset α) := rfl

theorem dropLast_append_getLastD {α : Type} (l : List α) :
    ∀ (d : α), l ≠ [] → l.dropLast ++ [l.getLastD d] = l := by
  induction l with
  | nil => intro d h; simp at h
  | cons a t ih =>
    intro d h
    cases ht : t with
    | nil => rfl
    | cons b t2 =>
      subst ht
      have h2 := ih a (by simp)
      simp only [List.getLastD_cons] at h2
      simp only [List.dropLast_cons₂, List.getLastD_cons, List.cons_append]
      rw [h2]

theorem findBestFrameIndex_some (buf : List QFrame) (e : Rat) (i : Nat)
    (h : findBestFrameIndex buf e = some i) :
    i + 1 = (buf.takeWhile (fun q => q.timestamp ≤ e)).length ∧ i < buf.length := by
  have hle : (buf.takeWhile (fun q : QFrame => decide (q.timestamp ≤ e))).length ≤
      buf.length :=
    (List.takeWhile_sublist (fun q : QFrame => decide (q.timestamp ≤ e))).length_le
  unfold findBestFrameIndex at h
  dsimp only at h
  split_ifs at h with hr
  cases h
  exact ⟨by omega, by omega⟩

theorem deq_perm_core (buf : List QFrame) (k : Nat) (hk : k < buf.length) :
    (([] : List Nat) ++ buf.map QFrame.frame).Perm
      ((some ((buf.drop k).headD default).frame).toList ++
        ((buf.take k).map (fun q => (q.frame, DropReason.skip))).map Prod.fst ++
        ((buf.drop k).tail).map QFrame.frame) := by
  have hdrop : buf.drop k = buf[k] :: buf.drop (k + 1) := List.drop_eq_getElem_cons hk
  conv_lhs => rw [(List.take_append_drop k buf).symm, hdrop]
  rw [hdrop]
  simp only [List.nil_append, List.headD_cons, List.tail_cons, Option.toList_some,
    List.map_append, List.map_cons, List.map_map, Function.comp_def]
  simp



theorem enq_conserve (s : SchedulerState) (f : Nat) (ts : Rat) :
    (([f] : List Nat) ++ s.buffer.map QFrame.frame).Perm
      (([] : List Nat) ++ ((s.enqueue f ts).2).map Prod.fst ++
        ((s.enqueue f ts).1.buffer).map QFrame.frame) := by
  have hsplit : s.buffer.map QFrame.frame =
      ((dropOverflow s.buffer s.maxBufferSize).2).map QFrame.frame ++
      ((dropOverflow s.buffer s.maxBufferSize).1).map QFrame.frame := by
    rw [← List.map_append, dropOverflow_append]
  show (([f] : List Nat) ++ s.buffer.map QFrame.frame).Perm
    ([] ++ (((dropOverflow s.buffer s.maxBufferSize).2).map
        (fun q => (q.frame, DropReason.overflow))).map Prod.fst ++
      (((dropOverflow s.buffer s.maxBufferSize).1 ++
        [({ frame := f, timestamp := ts } : QFrame)]).map QFrame.frame))
  rw [← Multiset.coe_eq_coe]
  simp only [List.nil_append, List.map_append, List.map_map, Function.comp_def,
    List.map_cons, List.map_nil, coe_append_ms]
  rw [hsplit, coe_append_ms]
  abel

theorem deq_conserve (s : SchedulerState) (t : Rat) :
    (([] : List Nat) ++ s.buffer.map QFrame.frame).Perm
      ((s.dequeue t).1.toList ++ ((s.dequeue t).2.2).map Prod.fst ++
        ((s.dequeue t).2.1.buffer).map QFrame.frame) := by
  unfold SchedulerState.dequeue
  dsimp only
  split_ifs with h1 h2 h3
  · simp_all [List.isEmpty_iff]
  · have hne : s.buffer ≠ [] := by simpa [List.isEmpty_iff] using h1
    have hsplit : s.buffer = s.buffer.dropLast ++ [s.buffer.getLastD default] :=
      (dropLast_append_getLastD s.buffer default hne).symm
    dsimp only [trackBufferSize_buffer]
    conv_lhs => rw [hsplit]
    rw [← Multiset.coe_eq_coe]
    simp only [List.nil_append, List.map_append, List.map_map, Function.comp_def,
      Option.toList_some, List.map_cons, List.map_nil, List.append_nil, coe_append_ms]
    abel
  · simp
  all_goals
    cases hfb : findBestFrameIndex (trackBufferSize (syncInit s (t * 1000))).buffer
      ((trackBufferSize (syncInit s (t * 1000))).startStreamTimeUs.getD 0 +
        (t * 1000 - (trackBufferSize (syncInit s (t * 1000))).startRealTimeUs.getD 0) -
        (trackBufferSize (syncInit s (t * 1000))).bufferDelayMs * 1000) with
    | none => simp [hfb]
    | some bestIdx =>
      simp only [hfb]
      obtain ⟨hr, hlt⟩ := findBestFrameIndex_some _ _ _ hfb
      simp only [trackBufferSize_buffer, syncInit_buffer] at hlt ⊢
      by_cases hb : bestIdx > 1
      · simp only [if_pos hb, correctDrift_buffer, trackBufferSize_buffer,
          syncInit_buffer]
        exact deq_perm_core s.buffer (bestIdx - 1) (by omega)
      · simp only [if_neg hb, correctDrift_buffer, trackBufferSize_buffer,
          syncInit_buffer]
        exact deq_perm_core s.buffer 0 (by omega)



theorem perm_chain {α : Type} (E1 E2 B R1 D1 B1 R2 D2 F : List α)
    (h1 : (E1 ++ B).Perm (R1 ++ D1 ++ B1))
    (h2 : (E2 ++ B1).Perm (R2 ++ D2 ++ F)) :
    ((E1 ++ E2) ++ B).Perm ((R1 ++ R2) ++ (D1 ++ D2) ++ F) := by
  rw [← Multiset.coe_eq_coe] at h1 h2 ⊢
  simp only [coe_append_ms] at h1 h2 ⊢
  calc (E1 : Multiset α) + E2 + B = (E1 + B) + E2 := by abel
    _ = ((R1 : Multiset α) + D1 + B1) + E2 := by rw [h1]
    _ = ((R1 : Multiset α) + D1) + (E2 + B1) := by abel
    _ = ((R1 : Multiset α) + D1) + (R2 + D2 + F) := by rw [h2]
    _ = ((R1 : Multiset α) + R2) + (D1 + D2) + F := by abel

theorem schedStep_conservation (s : SchedulerState) (op : SchedOp) :
    ((schedStep s op).2.2.2 ++ s.buffer.map QFrame.frame).Perm
      ((schedStep s op).2.1 ++ ((schedStep s op).2.2.1).map Prod.fst ++
        ((schedStep s op).1.buffer).map QFrame.frame) := by
  cases op with
  | enqueue f ts => exact enq_conserve s f ts
  | dequeue t => exact deq_conserve s t
  | clear =>
    show ([] ++ s.buffer.map QFrame.frame).Perm
      ([] ++ (s.buffer.map (fun q : QFrame => (q.frame, DropReason.overflow))).map
        Prod.fst ++
        ([] : List QFrame).map QFrame.frame)
    simp [List.map_map, Function.comp_def]
  | setBufferDelay d =>
    show ([] ++ s.buffer.map QFrame.frame).Perm
      ([] ++ ([] : List (Nat × DropReason)).map Prod.fst ++
        ((s.setBufferDelay d).buffer).map QFrame.frame)
    simp

theorem schedRun_conservation (s : SchedulerState) (ops : List SchedOp) :
    ((schedRun s ops).2.2.2 ++ s.buffer.map QFrame.frame).Perm
      ((schedRun s ops).2.1 ++ ((schedRun s ops).2.2.1).map Prod.fst ++
        ((schedRun s ops).1.buffer).map QFrame.frame) := by
  induction ops generalizing s with
  | nil => simp [schedRun]
  | cons op rest ih =>
    have h1 := schedStep_conservation s op
    have h2 := ih (schedStep s op).1
    show ((schedStep s op).2.2.2 ++ (schedRun (schedStep s op).1 rest).2.2.2 ++
        s.buffer.map QFrame.frame).Perm
      (((schedStep s op).2.1 ++ (schedRun (schedStep s op).1 rest).2.1) ++
        (((schedStep s op).2.2.1 ++ (schedRun (schedStep s op).1 rest).2.2.1).map
          Prod.fst) ++
        ((schedRun (schedStep s op).1 rest).1.buffer).map QFrame.frame)
    rw [List.map_append]
    exact perm_chain _ _ _ _ _ _ _ _ _ h1 h2


/-! ### Claim C6 -/

/-- C6: frame conservation.  Over any operation sequence from a fresh
scheduler, the enqueued frames are a permutation of the handed-out frames,
the frames reported to `onFrameDropped`, and the frames still buffered
(so each enqueued frame is handed out at most once and `onFrameDropped`
fires exactly once per dropped frame); in particular the counts add up,
and every drop report carries reason 'overflow' or 'skip'. -/
theorem scheduler_frame_conservation (d : Option Rat) (mx : Option Nat)
    (ci : Option Nat) (th : Option Rat) (ops : List SchedOp) :
    ((schedRun (mkScheduler d mx ci th) ops).2.2.2).Perm
      ((schedRun (mkScheduler d mx ci th) ops).2.1 ++
        ((schedRun (mkScheduler d mx ci th) ops).2.2.1).map Prod.fst ++
        ((schedRun (mkScheduler d mx ci th) ops).1.buffer).map QFrame.frame) ∧
    (schedRun (mkScheduler d mx ci th) ops).2.2.2.length =
      (schedRun (mkScheduler d mx ci th) ops).2.1.length +
        (schedRun (mkScheduler d mx ci th) ops).2.2.1.length +
        (schedRun (mkScheduler d mx ci th) ops).1.buffer.length ∧
    ∀ e ∈ (schedRun (mkScheduler d mx ci th) ops).2.2.1,
      e.2 = DropReason.overflow ∨ e.2 = DropReason.skip := by
  have h := schedRun_conservation (mkScheduler d mx ci th) ops
  have hbuf : (mkScheduler d mx ci th).buffer = [] := rfl
  rw [hbuf] at h
  simp only [List.map_nil, List.append_nil] at h
  refine ⟨h, ?_, ?_⟩
  · have hlen := h.length_eq
    simp only [List.length_append, List.length_map] at hlen
    omega
  · intro e he
    cases e.2
    · exact Or.inl rfl
    · exact Or.inr rfl

/-- C6 witness: the conservation permutation on a concrete one-enqueue
run. -/
theorem scheduler_frame_conservation_witness :
    ((schedRun (mkScheduler none none none none) [.enqueue 5 0]).2.2.2).Perm
      ((schedRun (mkScheduler none none none none) [.enqueue 5 0]).2.1 ++
        ((schedRun (mkScheduler none none none none) [.enqueue 5 0]).2.2.1).map
          Prod.fst ++
        ((schedRun (mkScheduler none none none none)
          [.enqueue 5 0]).1.buffer).map QFrame.frame) :=
  (scheduler_frame_conservation none none none none [.enqueue 5 0]).1

/-! ### Claim C2 -/

theorem takeWhile_get_eq (p : QFrame → Bool) :
    ∀ (l : List QFrame) (i : Nat) (h : i < (l.takeWhile p).length),
      ∃ hl : i < l.length,
        (l.takeWhile p).get ⟨i, h⟩ = l.get ⟨i, hl⟩ ∧
        p (l.get ⟨i, hl⟩) = true := by
  intro l
  induction l with
  | nil => intro i h; simp [List.takeWhile] at h
  | cons a t ih =>
    intro i h
    by_cases hpa : p a
    · rw [List.takeWhile_cons, if_pos hpa] at h
      cases i with
      | zero =>
        refine ⟨Nat.succ_pos _, ?_, hpa⟩
        simp [List.takeWhile_cons, hpa]
      | succ j =>
        obtain ⟨hl, heq, hp⟩ := ih j (by simpa using h)
        refine ⟨by simpa using hl, ?_, by simpa using hp⟩
        simp [List.takeWhile_cons, hpa]
        simpa using heq
    · rw [List.takeWhile_cons, if_neg hpa] at h
      simp at h

theorem take_ts_le (l : List QFrame)
    (hsort : l.Pairwise (fun a b => a.timestamp ≤ b.timestamp)) :
    ∀ (i : Nat) (hl : i < l.length) (x : QFrame), x ∈ l.take (i + 1) →
      x.timestamp ≤ (l.get ⟨i, hl⟩).timestamp := by
  induction l with
  | nil => intro i hl; simp at hl
  | cons a t ih =>
    intro i hl x hx
    cases i with
    | zero =>
      simp only [List.take_succ_cons, List.take_zero] at hx
      simp only [List.mem_singleton] at hx
      subst hx
      exact le_refl _
    | succ j =>
      simp only [List.take_succ_cons, List.mem_cons] at hx
      rcases hx with rfl | hx
      · have hmem : t.get ⟨j, by simpa using hl⟩ ∈ t :=
          List.get_mem t j (by simpa using hl)
        exact (List.pairwise_cons.mp hsort).1 _ hmem
      · exact ih (List.pairwise_cons.mp hsort).2 j (by simpa using hl) x hx

theorem dropWhile_ts_gt (E : Rat) :
    ∀ (l : List QFrame),
      l.Pairwise (fun a b => a.timestamp ≤ b.timestamp) →
      ∀ x ∈ l.dropWhile (fun q => decide (q.timestamp ≤ E)), E < x.timestamp := by
  intro l
  induction l with
  | nil => intro hsort x hx; simp [List.dropWhile] at hx
  | cons a t ih =>
    intro hsort x hx
    by_cases hpa : a.timestamp ≤ E
    · rw [List.dropWhile_cons_of_pos (by simpa using hpa)] at hx
      exact ih (List.pairwise_cons.mp hsort).2 x hx
    · rw [List.dropWhile_cons_of_neg (by simpa using hpa)] at hx
      push_neg at hpa
      rcases List.mem_cons.mp hx with rfl | hx
      · exact hpa
      · exact lt_of_lt_of_le hpa ((List.pairwise_cons.mp hsort).1 x hx)

theorem near_newest_core (buf : List QFrame) (E : Rat) (k : Nat)
    (hsort : buf.Pairwise (fun a b => a.timestamp ≤ b.timestamp))
    (hk : k < (buf.takeWhile (fun q => decide (q.timestamp ≤ E))).length)
    (hk2 : (buf.takeWhile (fun q => decide (q.timestamp ≤ E))).length ≤ k + 2) :
    (buf.drop k).headD default ∈ buf ∧
    ((buf.drop k).headD default).timestamp ≤ E ∧
    (buf.filter (fun p =>
        decide (p.timestamp ≤ E) &&
        decide (((buf.drop k).headD default).timestamp < p.timestamp))).length ≤ 1 := by
  have hkbuf : k < buf.length :=
    lt_of_lt_of_le hk
      (List.takeWhile_sublist (fun q : QFrame => decide (q.timestamp ≤ E))).length_le
  have hhead : (buf.drop k).headD default = buf.get ⟨k, hkbuf⟩ := by
    rw [List.drop_eq_getElem_cons hkbuf]
    rfl
  obtain ⟨hl, hgeteq, hp⟩ :=
    takeWhile_get_eq (fun q => decide (q.timestamp ≤ E)) buf k hk
  set q : QFrame := buf.get ⟨k, hkbuf⟩ with hq
  have hqts : q.timestamp ≤ E := by
    have := hp
    simp only [decide_eq_true_eq] at this
    exact this
  refine ⟨?_, ?_, ?_⟩
  · rw [hhead]; exact List.get_mem buf k hkbuf
  · rw [hhead]; exact hqts
  · rw [hhead]
    -- split the buffer at the takeWhile boundary
    have hsplit : buf =
        buf.takeWhile (fun q => decide (q.timestamp ≤ E)) ++
        buf.dropWhile (fun q => decide (q.timestamp ≤ E)) :=
      (List.takeWhile_append_dropWhile _ _).symm
    set P : QFrame → Bool := fun p =>
      decide (p.timestamp ≤ E) && decide (q.timestamp < p.timestamp) with hP
    have hdw : (buf.dropWhile (fun q => decide (q.timestamp ≤ E))).filter P = [] := by
      rw [List.filter_eq_nil_iff]
      intro x hx
      have hgt := dropWhile_ts_gt E buf hsort x hx
      simp [hP]
      intro hle
      exact absurd hgt (by simp; exact hle)
    set tw := buf.takeWhile (fun q => decide (q.timestamp ≤ E)) with htw
    have htwsort : tw.Pairwise (fun a b => a.timestamp ≤ b.timestamp) :=
      hsort.sublist (List.takeWhile_sublist _)
    have htwsplit : tw = tw.take (k + 1) ++ tw.drop (k + 1) :=
      (List.take_append_drop _ _).symm
    have htake : (tw.take (k + 1)).filter P = [] := by
      rw [List.filter_eq_nil_iff]
      intro x hx
      have hle : x.timestamp ≤ (tw.get ⟨k, hk⟩).timestamp :=
        take_ts_le tw htwsort k hk x hx
      rw [hgeteq] at hle
      simp [hP]
      intro h1
      calc x.timestamp ≤ q.timestamp := hle
        _ = q.timestamp := rfl
    have hlen2 : (tw.drop (k + 1)).length ≤ 1 := by
      have := List.length_drop (k + 1) tw
      omega
    calc (buf.filter P).length
        = ((tw ++ buf.dropWhile (fun q => decide (q.timestamp ≤ E))).filter P).length := by
          rw [← hsplit]
      _ = (tw.filter P).length := by
          rw [List.filter_append, hdw, List.append_nil]
      _ = (((tw.take (k + 1)).filter P).length + ((tw.drop (k + 1)).filter P).length) := by
          conv_lhs => rw [htwsplit]
          rw [List.filter_append, List.length_append]
      _ ≤ 1 := by
          rw [htake]
          have := List.length_filter_le P (tw.drop (k + 1))
          simpa using by omega

/-- Evaluation of the concrete scheduler run behind `cexSchedC2`. -/
theorem cexSchedC2_eval : cexSchedC2 =
    { buffer := [⟨1, 20000⟩, ⟨2, 40000⟩],
      bufferDelayMs := 100, maxBufferSize := 30,
      startRealTimeUs := some 5000, startStreamTimeUs := some 100000,
      frameDurationUs := 20000, lastFrameTimestamp := some 40000,
      bufferSizeHistory := [3], driftCheckInterval := 150,
      driftThresholdMs := 30, dequeueCount := 1, statsDropped := 0,
      statsEnqueued := 3, statsDequeued := 1, statsDriftCorrections := 0 } := by
  norm_num [cexSchedC2, schedRun, schedStep, mkScheduler,
    SchedulerState.enqueue, SchedulerState.dequeue, dropOverflow,
    trackBufferSize, syncInit, correctDrift, findBestFrameIndex,
    List.takeWhile, Rat.ceil, min_def]

/-- C2: in non-bypass mode (nonzero buffer delay), a successful
`dequeue(now_ms)` over a timestamp-sorted buffer returns a buffered frame
whose timestamp is at most the expected stream time, and at most one
eligible buffered frame is newer than it (the source's one-frame tolerance:
`dequeue` returns `buffer[bestIdx - 1]` whenever `bestIdx > 1`, not the
best frame itself). -/
theorem dequeue_returns_near_newest (s : SchedulerState) (t : Rat) (fid : Nat)
    (hdelay : s.bufferDelayMs ≠ 0)
    (hsort : s.buffer.Pairwise (fun a b => a.timestamp ≤ b.timestamp))
    (hres : (s.dequeue t).1 = some fid) :
    ∃ q ∈ s.buffer, q.frame = fid ∧ q.timestamp ≤ dequeueExpected s t ∧
      (s.buffer.filter (fun p =>
          decide (p.timestamp ≤ dequeueExpected s t) &&
          decide (q.timestamp < p.timestamp))).length ≤ 1 := by
  have hE : dequeueExpected s t =
      (syncInit s (t * 1000)).startStreamTimeUs.getD 0 +
        (t * 1000 - (syncInit s (t * 1000)).startRealTimeUs.getD 0) -
        s.bufferDelayMs * 1000 := by
    unfold dequeueExpected
    dsimp only
    rw [syncInit_bufferDelayMs]
  unfold SchedulerState.dequeue at hres
  dsimp only at hres
  split_ifs at hres with h1 h2 h3
  all_goals
    cases hfb : findBestFrameIndex (trackBufferSize (syncInit s (t * 1000))).buffer
      ((trackBufferSize (syncInit s (t * 1000))).startStreamTimeUs.getD 0 +
        (t * 1000 - (trackBufferSize (syncInit s (t * 1000))).startRealTimeUs.getD 0) -
        (trackBufferSize (syncInit s (t * 1000))).bufferDelayMs * 1000) with
    | none => rw [hfb] at hres; simp at hres
    | some bestIdx =>
      rw [hfb] at hres
      dsimp only at hres
      obtain ⟨hr, hlt⟩ := findBestFrameIndex_some _ _ _ hfb
      simp only [trackBufferSize_buffer, trackBufferSize_startStreamTimeUs,
        trackBufferSize_startRealTimeUs, trackBufferSize_bufferDelayMs,
        syncInit_buffer, syncInit_bufferDelayMs] at hr
      rw [← hE] at hr
      by_cases hb : bestIdx > 1
      · simp only [if_pos hb, correctDrift_buffer, trackBufferSize_buffer,
          syncInit_buffer] at hres
        have hfid := Option.some.inj hres
        have hk : bestIdx - 1 <
            (s.buffer.takeWhile
              (fun q => decide (q.timestamp ≤ dequeueExpected s t))).length := by
          omega
        have hk2 : (s.buffer.takeWhile
            (fun q => decide (q.timestamp ≤ dequeueExpected s t))).length ≤
            bestIdx - 1 + 2 := by
          omega
        obtain ⟨hmem, hts, hfilt⟩ :=
          near_newest_core s.buffer (dequeueExpected s t) (bestIdx - 1) hsort hk hk2
        exact ⟨_, hmem, hfid, hts, hfilt⟩
      · simp only [if_neg hb, correctDrift_buffer, trackBufferSize_buffer,
          syncInit_buffer] at hres
        have hk : 0 < (s.buffer.takeWhile
            (fun q => decide (q.timestamp ≤ dequeueExpected s t))).length := by
          omega
        have hk2 : (s.buffer.takeWhile
            (fun q => decide (q.timestamp ≤ dequeueExpected s t))).length ≤
            0 + 2 := by
          omega
        obtain ⟨hmem, hts, hfilt⟩ :=
          near_newest_core s.buffer (dequeueExpected s t) 0 hsort hk hk2
        rw [List.drop_zero] at hmem hts hfilt
        have hfid : (s.buffer.headD default).frame = fid := by
          simpa using Option.some.inj hres
        exact ⟨_, hmem, hfid, hts, by simpa using hfilt⟩

/-- C2 witness: the near-newest property instantiated on `cexSchedC2` at
55 ms. -/
theorem dequeue_returns_near_newest_witness :
    ∃ q ∈ cexSchedC2.buffer, q.frame = 1 ∧
      q.timestamp ≤ dequeueExpected cexSchedC2 55 ∧
      (cexSchedC2.buffer.filter (fun p =>
          decide (p.timestamp ≤ dequeueExpected cexSchedC2 55) &&
          decide (q.timestamp < p.timestamp))).length ≤ 1 :=
  dequeue_returns_near_newest cexSchedC2 55 1
    (by rw [cexSchedC2_eval]; decide)
    (by rw [cexSchedC2_eval]; decide)
    (by rw [cexSchedC2_eval]
        norm_num [SchedulerState.dequeue, trackBufferSize, syncInit,
          correctDrift, findBestFrameIndex, List.takeWhile, min_def])

/-- C2 counterexample to the literal claim: at 55 ms the expected stream
time of `cexSchedC2` is 50000 µs, frame 2 (ts 40000) is buffered and
eligible, yet `dequeue` returns frame 1, whose timestamp 20000 is strictly
smaller — the returned frame does not have the greatest eligible
timestamp. -/
theorem dequeue_not_greatest_eligible :
    (cexSchedC2.dequeue 55).1 = some 1 ∧
    ({ frame := 2, timestamp := 40000 } : QFrame) ∈ cexSchedC2.buffer ∧
    (40000 : Rat) ≤ dequeueExpected cexSchedC2 55 ∧
    ∀ q ∈ cexSchedC2.buffer, q.frame = 1 → q.timestamp < 40000 := by
  rw [cexSchedC2_eval]
  refine ⟨?_, by decide, ?_, by decide⟩
  · norm_num [SchedulerState.dequeue, trackBufferSize, syncInit,
      correctDrift, findBestFrameIndex, List.takeWhile, min_def]
  · norm_num [dequeueExpected, syncInit]

/-! ### Claim C3 -/

theorem codecDataChanged_self (cd : HeaderCodecData) :
    codecDataChanged (some cd) (some cd) = false := by
  unfold codecDataChanged
  simp

theorem noteSeen_waitingForKeyframe (s : LivePlayerState) (kf : Bool)
    (cd : HeaderCodecData) :
    (noteSeen s kf cd).waitingForKeyframe = s.waitingForKeyframe := by
  unfold noteSeen
  split_ifs <;> rfl

theorem noteSeen_matched_true (s : LivePlayerState) (kf : Bool)
    (cd : HeaderCodecData) (hkf : kf = true)
    (hcd : codecDataChanged s.currentCodecData (some cd) = false) :
    (noteSeen s kf cd).matchedKeyframeSinceReset = true := by
  unfold noteSeen
  rw [if_pos ⟨hkf, hcd⟩]

theorem noteSeen_matched_mono (s : LivePlayerState) (kf : Bool)
    (cd : HeaderCodecData) (h : s.matchedKeyframeSinceReset = true) :
    (noteSeen s kf cd).matchedKeyframeSinceReset = true := by
  unfold noteSeen
  split_ifs <;> simp [h]

theorem processGate_gate (s : LivePlayerState) (kf : Bool)
    (cd : HeaderCodecData)
    (hcd : codecDataChanged s.currentCodecData (some cd) = false)
    (hI : s.waitingForKeyframe = false → s.matchedKeyframeSinceReset = true) :
    ((processGate s kf cd).1.waitingForKeyframe = false →
      (processGate s kf cd).1.matchedKeyframeSinceReset = true) ∧
    ∀ r ∈ (processGate s kf cd).2, r.matchedKeyframeSeen = true := by
  have hwait := noteSeen_waitingForKeyframe s kf cd
  unfold processGate
  dsimp only
  split_ifs with h1 h2 h3
  · -- configured, waiting, keyframe: the gate opens and the packet decodes
    have hm := noteSeen_matched_true s kf cd h3 hcd
    refine ⟨fun hw => hm, ?_⟩
    intro r hr
    simp at hr
    rw [hr]
    exact hm
  · -- configured, waiting, non-key packet: dropped
    refine ⟨fun hw => ?_, by simp⟩
    dsimp only at hw
    rw [hw] at h2
    exact Bool.noConfusion h2
  · -- configured, not waiting: decoded under the standing gate condition
    have hsw : (noteSeen s kf cd).waitingForKeyframe = false := by
      simpa using h2
    have hm : (noteSeen s kf cd).matchedKeyframeSinceReset = true :=
      noteSeen_matched_mono s kf cd (hI (hwait.symm.trans hsw))
    refine ⟨fun hw => hm, ?_⟩
    intro r hr
    simp at hr
    rw [hr]
    exact hm
  · -- decoder not configured: nothing decoded
    refine ⟨fun hw => noteSeen_matched_mono s kf cd (hI ?_), by simp⟩
    dsimp only at hw
    rw [← hwait]
    exact hw

theorem playerStep_gate (s : LivePlayerState) (e : PlayerEvent)
    (hI : s.waitingForKeyframe = false → s.matchedKeyframeSinceReset = true) :
    ((playerStep s e).1.waitingForKeyframe = false →
      (playerStep s e).1.matchedKeyframeSinceReset = true) ∧
    ∀ r ∈ (playerStep s e).2, r.matchedKeyframeSeen = true := by
  cases e with
  | videoPacket kf cdata cfgOk =>
    unfold playerStep
    dsimp only
    split_ifs with h1 h2
    · -- codec change on a keyframe: reconfigure, then reprocess the packet
      exact processGate_gate _ kf cdata (codecDataChanged_self cdata)
        (by intro h; simp at h)
    · -- codec change on a non-key packet: dropped
      exact ⟨hI, by simp⟩
    · -- unchanged codec: straight through the gate
      exact processGate_gate s kf cdata (by simpa using h1) hI
  | flush => exact ⟨by simp [playerStep], by simp [playerStep]⟩
  | switchDecoder =>
    unfold playerStep
    dsimp only
    split_ifs with h1
    · exact ⟨by simp, by simp⟩
    · exact ⟨hI, by simp⟩

/-- C3: from the initial state, for every sequence of stream-data, flush
and decoder-switch events, a video packet reaches `decoder.decodeBinary`
only after a keyframe with the player's current codec identity has been
seen since the last gate reset (initial state, flush, decoder switch or
reconfiguration): every recorded decode call carries
`matchedKeyframeSeen = true`. -/
theorem live_player_keyframe_gate (es : List PlayerEvent) :
    ∀ r ∈ (playerRun initLivePlayer es).2, r.matchedKeyframeSeen = true := by
  have main : ∀ (l : List PlayerEvent) (s : LivePlayerState),
      (s.waitingForKeyframe = false → s.matchedKeyframeSinceReset = true) →
      ∀ r ∈ (playerRun s l).2, r.matchedKeyframeSeen = true := by
    intro l
    induction l with
    | nil =>
      intro s hI r hr
      simp [playerRun] at hr
    | cons e rest ih =>
      intro s hI r hr
      obtain ⟨hstep, hrecs⟩ := playerStep_gate s e hI
      unfold playerRun at hr
      dsimp only at hr
      rw [List.mem_append] at hr
      rcases hr with hr | hr
      · exact hrecs r hr
      · exact ih (playerStep s e).1 hstep r hr
  exact main es initLivePlayer (by intro h; simp [initLivePlayer] at h)

/-- C3 witness: the gate property on the one-packet run that adopts
`wCodec`, configures the decoder and decodes the triggering keyframe. -/
theorem live_player_keyframe_gate_witness :
    (⟨true, wCodec, true⟩ : DecodeRec).matchedKeyframeSeen = true :=
  live_player_keyframe_gate [PlayerEvent.videoPacket true wCodec true]
    ⟨true, wCodec, true⟩ (by decide)

/-! ### Claim C9 -/

theorem waitGo_ne_immediate (m : Nat) (moov : Option Bool) :
    ∀ (es : List WaitEvent) (f : Nat),
      waitGo m moov f es ≠ some WaitOutcome.readyImmediately := by
  intro es
  induction es with
  | nil => intro f h; simp [waitGo] at h
  | cons e rest ih =>
    intro f h
    cases e with
    | frameDecoded =>
      unfold waitGo at h
      dsimp only at h
      split_ifs at h with h1
      · simp at h
      · exact ih (f + 1) h
    | timeoutFires =>
      unfold waitGo at h
      split_ifs at h <;> simp at h

theorem waitGo_none_iff (m : Nat) (moov : Option Bool) :
    ∀ (es : List WaitEvent) (f : Nat), f < m →
      (waitGo m moov f es = none ↔
        WaitEvent.timeoutFires ∉ es ∧ f + es.length < m) := by
  intro es
  induction es with
  | nil =>
    intro f hf
    simp [waitGo]
    omega
  | cons e rest ih =>
    intro f hf
    cases e with
    | frameDecoded =>
      unfold waitGo
      dsimp only
      split_ifs with h1
      · simp
        omega
      · rw [ih (f + 1) (by omega)]
        simp
        omega
    | timeoutFires =>
      unfold waitGo
      split_ifs <;> simp

theorem waitGo_fill (m : Nat) (moov : Option Bool) (rest : List WaitEvent) :
    ∀ (n f : Nat), f + n = m → 0 < n →
      waitGo m moov f (List.replicate n WaitEvent.frameDecoded ++ rest) =
        some WaitOutcome.readyBeforeTimeout := by
  intro n
  induction n with
  | zero => intro f h h0; omega
  | succ j ih =>
    intro f h h0
    rw [List.replicate_succ, List.cons_append]
    unfold waitGo
    dsimp only
    by_cases hj : j = 0
    · rw [if_pos (by omega)]
    · rw [if_neg (by omega)]
      exact ih (f + 1) (by omega) (by omega)

theorem waitGo_timeout (m : Nat) (moov : Option Bool) (rest : List WaitEvent) :
    ∀ (k f : Nat), f + k < m →
      waitGo m moov f (List.replicate k WaitEvent.frameDecoded ++
          WaitEvent.timeoutFires :: rest) =
        some (if 0 < f + k then WaitOutcome.readyAtTimeout
              else WaitOutcome.failedTimeout (decide (moov = some false))) := by
  intro k
  induction k with
  | zero =>
    intro f hf
    rw [List.replicate_zero, List.nil_append]
    unfold waitGo
    split_ifs with h1 h2
    · rfl
    · omega
    · omega
    · rfl
  | succ j ih =>
    intro f hf
    rw [List.replicate_succ, List.cons_append]
    unfold waitGo
    dsimp only
    rw [if_neg (by omega)]
    have h2 := ih (f + 1) (by omega)
    rw [h2, if_pos (by omega : (0:Nat) < f + 1 + j)]
    rw [if_pos (by omega : (0:Nat) < f + (j + 1))]

/-- C9: the file player's buffer-ready barrier.  `minBufferSize` defaults
to 3 frames and the timeout is 5000 ms; the wait resolves immediately
exactly when the buffer already holds `minBuffer` frames; it stays pending
exactly while no timeout has fired and the decoded frames have not reached
`minBuffer`; decoding the missing `minBuffer - frames` frames resolves it
before the timeout; and a timeout reached with `frames + k < minBuffer`
frames resolves successfully if at least one frame is buffered and
otherwise rejects, with the non-progressive-container (faststart) hint
exactly when `fileInfo.isMoovAtStart` is `false`. -/
theorem file_player_buffer_barrier (f m k : Nat) (moov : Option Bool)
    (es rest : List WaitEvent) :
    minBufferSizeDefault = 3 ∧ bufferTimeoutMs = 5000 ∧
    (waitForBufferProcess f m moov es = some WaitOutcome.readyImmediately ↔
      m ≤ f) ∧
    (waitForBufferProcess f m moov es = none ↔
      WaitEvent.timeoutFires ∉ es ∧ f + es.length < m) ∧
    (f < m →
      waitForBufferProcess f m moov
        (List.replicate (m - f) WaitEvent.frameDecoded ++ rest) =
        some WaitOutcome.readyBeforeTimeout) ∧
    (f + k < m →
      waitForBufferProcess f m moov
        (List.replicate k WaitEvent.frameDecoded ++
          WaitEvent.timeoutFires :: rest) =
        some (if 0 < f + k then WaitOutcome.readyAtTimeout
              else WaitOutcome.failedTimeout (decide (moov = some false)))) := by
  refine ⟨rfl, rfl, ?_, ?_, ?_, ?_⟩
  · unfold waitForBufferProcess
    split_ifs with h1
    · simp
      omega
    · constructor
      · intro h
        exact absurd h (waitGo_ne_immediate m moov es f)
      · intro h
        exact absurd h (by omega)
  · unfold waitForBufferProcess
    split_ifs with h1
    · simp
      omega
    · exact waitGo_none_iff m moov es f (by omega)
  · intro hf
    unfold waitForBufferProcess
    rw [if_neg (by omega)]
    exact waitGo_fill m moov rest (m - f) f (by omega) (by omega)
  · intro hk
    unfold waitForBufferProcess
    rw [if_neg (by omega)]
    exact waitGo_timeout m moov rest k f hk

/-- C9 witness: with an empty buffer, threshold 3 and a non-faststart
file, the timeout rejects with the moov hint. -/
theorem file_player_buffer_barrier_witness :
    waitForBufferProcess 0 3 (some false) [WaitEvent.timeoutFires] =
      some (WaitOutcome.failedTimeout true) := by
  have h := (file_player_buffer_barrier 0 3 0 (some false) [] []).2.2.2.2.2
    (by decide)
  simpa using h

end WebLivePlayer
